import Mathlib

/-!
Verification development for the Etho backend's response-normalization core
(`app/services/gemini_service.py`).  The Python value universe (JSON-like
values as produced by `json.loads` and manipulated by the service) is embedded
as `PyVal`; dictionaries are insertion-ordered association lists with the
update-in-place / append-if-new semantics of Python `dict`.  Fallible Python
code (code that can raise) is embedded with `Except String`, the carried
string standing for `str(e)` of the raised exception.
-/

set_option maxRecDepth 10000
set_option maxHeartbeats 1000000
set_option linter.unusedVariables false

/-- Embedding of the Python/JSON value universe used by the service.
Numbers follow `json.loads`: integer literals become `int`, literals with a
fraction or exponent become `float` (represented exactly as a rational; the
binary rounding of Python floats is not modelled, and the non-standard
constant literals `NaN`/`Infinity` accepted by Python's parser are outside
the modelled universe).  `none` is Python's `None`. -/
inductive PyVal where
  | str   (s : String)
  | int   (n : Int)
  | float (q : Rat)
  | bool  (b : Bool)
  | none
  | list  (xs : List PyVal)
  | dict  (m : List (String × PyVal))

/-- A Python dictionary with string keys: insertion-ordered association list. -/
abbrev PyDict := List (String × PyVal)

/-- `m[k]` lookup: first binding of `k` (Python dicts never hold duplicates,
so on well-formed dicts this is the unique binding). -/
def pyLookup (m : PyDict) (k : String) : Option PyVal :=
  match m with
  | [] => Option.none
  | (k', v) :: t => if k = k' then some v else pyLookup t k

/-- `k in m`. -/
def pyContains (m : PyDict) (k : String) : Bool :=
  (pyLookup m k).isSome

/-- `m[k] = v`: replace the (first) binding in place if `k` is present,
otherwise append a new binding at the end (Python dict assignment keeps the
original insertion position of an existing key). -/
def pyInsert (k : String) (v : PyVal) (m : PyDict) : PyDict :=
  match m with
  | [] => [(k, v)]
  | (k', v') :: t => if k = k' then (k, v) :: t else (k', v') :: pyInsert k v t

/-- `m.get(k)` (default `None`). -/
def pyGet (m : PyDict) (k : String) : PyVal :=
  (pyLookup m k).getD .none

/-- Python type name, used to reproduce exception texts. -/
def typeName : PyVal → String
  | .str _ => "str"
  | .int _ => "int"
  | .float _ => "float"
  | .bool _ => "bool"
  | .none => "NoneType"
  | .list _ => "list"
  | .dict _ => "dict"

example : pyInsert "a" (.int 2) [("a", .int 1), ("b", .int 3)]
    = [("a", .int 2), ("b", .int 3)] := rfl

example : pyLookup [("a", PyVal.int 1)] "b" = Option.none := rfl

/-! ### Model of Python `json.loads`

`parse_json_response` delegates all actual parsing to `json.loads`; the
functions below model it: the JSON grammar with `json`-module whitespace
(space, tab, newline, carriage return), strict strings (raw control
characters rejected, the standard escapes plus `\uXXXX` with surrogate-pair
combination; a lone surrogate, unrepresentable in a Lean `String`, is mapped
to U+FFFD), and numbers per the module's number regex (integer literals give
`int`, a literal with fraction or exponent gives `float`).  Duplicate object
keys follow Python dict assignment (last value wins, first position kept).
The non-standard `NaN`/`Infinity`/`-Infinity` constants are not modelled. -/

def jsonWs (c : Char) : Bool :=
  c = ' ' || c = '\t' || c = '\n' || c = '\r'

def skipWs (l : List Char) : List Char := l.dropWhile jsonWs

def hexVal (c : Char) : Option Nat :=
  if '0' ≤ c ∧ c ≤ '9' then some (c.toNat - '0'.toNat)
  else if 'a' ≤ c ∧ c ≤ 'f' then some (c.toNat - 'a'.toNat + 10)
  else if 'A' ≤ c ∧ c ≤ 'F' then some (c.toNat - 'A'.toNat + 10)
  else Option.none

def natOfDigits (ds : List Char) : Nat :=
  ds.foldl (fun a c => a * 10 + (c.toNat - '0'.toNat)) 0

/-- Body of a JSON string, after the opening quote.  Returns the decoded
characters and the input remaining after the closing quote.  Fuel only
bounds the recursion (every step consumes at least one input character, so
`length + 1` always suffices; `parseStr` below supplies it). -/
def parseStringBody : Nat → List Char → Option (List Char × List Char)
  | 0, _ => Option.none
  | _, [] => Option.none
  | _, '"' :: rest => some ([], rest)
  | fuel + 1, '\\' :: rest =>
    match rest with
    | '"' :: t => (parseStringBody fuel t).map (fun p => ('"' :: p.1, p.2))
    | '\\' :: t => (parseStringBody fuel t).map (fun p => ('\\' :: p.1, p.2))
    | '/' :: t => (parseStringBody fuel t).map (fun p => ('/' :: p.1, p.2))
    | 'b' :: t => (parseStringBody fuel t).map (fun p => ('\x08' :: p.1, p.2))
    | 'f' :: t => (parseStringBody fuel t).map (fun p => ('\x0c' :: p.1, p.2))
    | 'n' :: t => (parseStringBody fuel t).map (fun p => ('\n' :: p.1, p.2))
    | 'r' :: t => (parseStringBody fuel t).map (fun p => ('\r' :: p.1, p.2))
    | 't' :: t => (parseStringBody fuel t).map (fun p => ('\t' :: p.1, p.2))
    | 'u' :: a :: b :: c :: d :: t =>
      match hexVal a, hexVal b, hexVal c, hexVal d with
      | some ha, some hb, some hc, some hd =>
        let n1 := ((ha * 16 + hb) * 16 + hc) * 16 + hd
        if 0xD800 ≤ n1 ∧ n1 ≤ 0xDBFF then
          match t with
          | '\\' :: 'u' :: e :: f :: g :: h :: t2 =>
            match hexVal e, hexVal f, hexVal g, hexVal h with
            | some he, some hf, some hg, some hh =>
              let n2 := ((he * 16 + hf) * 16 + hg) * 16 + hh
              if 0xDC00 ≤ n2 ∧ n2 ≤ 0xDFFF then
                let cp := 0x10000 + (n1 - 0xD800) * 0x400 + (n2 - 0xDC00)
                (parseStringBody fuel t2).map (fun p => (Char.ofNat cp :: p.1, p.2))
              else
                (parseStringBody fuel t).map (fun p => ('\uFFFD' :: p.1, p.2))
            | _, _, _, _ =>
              (parseStringBody fuel t).map (fun p => ('\uFFFD' :: p.1, p.2))
          | _ => (parseStringBody fuel t).map (fun p => ('\uFFFD' :: p.1, p.2))
        else if 0xDC00 ≤ n1 ∧ n1 ≤ 0xDFFF then
          (parseStringBody fuel t).map (fun p => ('\uFFFD' :: p.1, p.2))
        else
          (parseStringBody fuel t).map (fun p => (Char.ofNat n1 :: p.1, p.2))
      | _, _, _, _ => Option.none
    | _ => Option.none
  | fuel + 1, c :: t =>
    if c.toNat < 0x20 then Option.none
    else (parseStringBody fuel t).map (fun p => (c :: p.1, p.2))

/-- A JSON string body with sufficient fuel. -/
def parseStr (l : List Char) : Option (List Char × List Char) :=
  parseStringBody (l.length + 1) l


/-- Integer part of a JSON number: `0` or `[1-9][0-9]*`. -/
def parseIntPart : List Char → Option (List Char × List Char)
  | '0' :: t => some (['0'], t)
  | c :: t =>
    if c.isDigit then
      let p := t.span Char.isDigit
      some (c :: p.1, p.2)
    else Option.none
  | [] => Option.none

/-- Optional fraction `.[0-9]+`; consumes nothing when absent/malformed. -/
def parseFrac : List Char → List Char × List Char
  | '.' :: t =>
    let p := t.span Char.isDigit
    if p.1.isEmpty then ([], '.' :: t) else (p.1, p.2)
  | l => ([], l)

/-- Optional exponent `[eE][-+]?[0-9]+`; consumes nothing when absent or
malformed (mirroring the Python number regex, which then simply stops the
number before the `e`). -/
def parseExp : List Char → Option Int × List Char
  | c :: t =>
    if c = 'e' ∨ c = 'E' then
      match t with
      | '+' :: t2 =>
        let p := t2.span Char.isDigit
        if p.1.isEmpty then (Option.none, c :: t) else (some (natOfDigits p.1 : Int), p.2)
      | '-' :: t2 =>
        let p := t2.span Char.isDigit
        if p.1.isEmpty then (Option.none, c :: t) else (some (-(natOfDigits p.1 : Int)), p.2)
      | t2 =>
        let p := t2.span Char.isDigit
        if p.1.isEmpty then (Option.none, c :: t) else (some (natOfDigits p.1 : Int), p.2)
    else (Option.none, c :: t)
  | [] => (Option.none, [])

/-- A JSON number starting at the head of the input. -/
def parseNumber (l : List Char) : Option (PyVal × List Char) :=
  let sn := match l with
    | '-' :: t => (true, t)
    | t => (false, t)
  match parseIntPart sn.2 with
  | Option.none => Option.none
  | some (ip, r1) =>
    let fr := parseFrac r1
    let ex := parseExp fr.2
    if fr.1.isEmpty ∧ ex.1.isNone then
      let n : Int := (natOfDigits ip : Int)
      some (.int (if sn.1 then -n else n), ex.2)
    else
      let mant : Rat := (natOfDigits (ip ++ fr.1) : Rat)
      let e : Int := ex.1.getD 0 - (fr.1.length : Int)
      some (.float ((if sn.1 then -mant else mant) * (10 : Rat) ^ e), ex.2)

mutual

/-- A JSON value (leading whitespace allowed); fuel bounds the recursion
depth, and `json_loads` supplies more fuel than any input can use. -/
def parseVal : Nat → List Char → Option (PyVal × List Char)
  | 0, _ => Option.none
  | fuel + 1, l =>
    match skipWs l with
    | '\x7b' :: t =>
      match skipWs t with
      | '\x7d' :: t2 => some (.dict [], t2)
      | t2 => parseMembers fuel [] t2
    | '[' :: t =>
      match skipWs t with
      | ']' :: t2 => some (.list [], t2)
      | t2 => parseItems fuel [] t2
    | '"' :: t => (parseStr t).map (fun p => (.str (String.mk p.1), p.2))
    | 't' :: 'r' :: 'u' :: 'e' :: t => some (.bool true, t)
    | 'f' :: 'a' :: 'l' :: 's' :: 'e' :: t => some (.bool false, t)
    | 'n' :: 'u' :: 'l' :: 'l' :: t => some (.none, t)
    | t => parseNumber t

/-- Members of a JSON object, positioned at a (quoted) key. -/
def parseMembers : Nat → PyDict → List Char → Option (PyVal × List Char)
  | 0, _, _ => Option.none
  | fuel + 1, acc, l =>
    match skipWs l with
    | '"' :: t =>
      match parseStr t with
      | Option.none => Option.none
      | some (kcs, t2) =>
        match skipWs t2 with
        | ':' :: t3 =>
          match parseVal fuel t3 with
          | Option.none => Option.none
          | some (v, t4) =>
            let acc2 := pyInsert (String.mk kcs) v acc
            match skipWs t4 with
            | ',' :: t5 => parseMembers fuel acc2 t5
            | '\x7d' :: t5 => some (.dict acc2, t5)
            | _ => Option.none
        | _ => Option.none
    | _ => Option.none

/-- Items of a JSON array, positioned at a value. -/
def parseItems : Nat → List PyVal → List Char → Option (PyVal × List Char)
  | 0, _, _ => Option.none
  | fuel + 1, acc, l =>
    match parseVal fuel l with
    | Option.none => Option.none
    | some (v, t) =>
      match skipWs t with
      | ',' :: t2 => parseItems fuel (acc ++ [v]) t2
      | ']' :: t2 => some (.list (acc ++ [v]), t2)
      | _ => Option.none

end

/-- Model of `json.loads`: parse one value, then require only whitespace to
remain (otherwise Python raises "Extra data" and the call fails). -/
def json_loads (s : String) : Option PyVal :=
  match parseVal (4 * s.data.length + 8) s.data with
  | some (v, rest) => if (skipWs rest).isEmpty then some v else Option.none
  | Option.none => Option.none

example : json_loads "\x7b\"a\": 1\x7d" = some (.dict [("a", .int 1)]) := rfl
example : json_loads "not json at all" = Option.none := rfl
example : json_loads " [1, \"x\\n\", true, null] "
    = some (.list [.int 1, .str "x\n", .bool true, .none]) := rfl
example : json_loads "\x7b\"a\":1, \"b\":2, \"a\":3\x7d"
    = some (.dict [("a", .int 3), ("b", .int 2)]) := rfl
example : json_loads "\x7b\"a\":1" = Option.none := rfl
example : json_loads "3 x" = Option.none := rfl

/-! ### Model of the two regex searches in `parse_json_response`

Strategy 2 uses `re.search(r'```(?:json)?\s*([\s\S]*?)\s*```', text)`: the
leftmost position opening a triple-backtick fence that has a closing fence
later wins; an optional literal `json` tag right after the opening fence is
consumed; the captured group is the text up to the first subsequent fence,
with the whitespace runs adjacent to both fences stripped (the leading `\s*`
is greedy, the group lazy, the trailing `\s*` backtracked before the fence).
Strategy 3 uses `re.search(r'\{[\s\S]*\}', text)`: the span from the first
`{` to the last `}`, when the first `{` comes before the last `}`.
`isPySpace` is the ASCII part of the `\s` class (Python also accepts some
Unicode whitespace, which no claim exercises). -/

def isPySpace (c : Char) : Bool :=
  c = ' ' || c = '\t' || c = '\n' || c = '\r' || c = '\x0b' || c = '\x0c'

def btick : Char := '\x60'

/-- Does the list start with a triple-backtick fence? -/
def fenceHead : List Char → Bool
  | a :: b :: c :: _ => a = btick && b = btick && c = btick
  | _ => false

/-- Drop an optional literal `json` tag (the regex's `(?:json)?`). -/
def dropTag (l : List Char) : List Char :=
  if ['j', 's', 'o', 'n'].isPrefixOf l then l.drop 4 else l

/-- Text up to (excluding) the first triple-backtick fence, or `none` when no
closing fence exists. -/
def takeToFence : List Char → Option (List Char)
  | [] => Option.none
  | c :: cs => if fenceHead (c :: cs) then some [] else (takeToFence cs).map (fun w => c :: w)

def dropTrailingWs (l : List Char) : List Char :=
  (l.reverse.dropWhile isPySpace).reverse

/-- Interior of a fenced block: after the opening fence and optional tag,
strip leading whitespace, take up to the first closing fence, strip the
whitespace run adjacent to it. -/
def fenceInterior (l : List Char) : Option (List Char) :=
  (takeToFence (l.dropWhile isPySpace)).map dropTrailingWs

/-- The captured group of `re.search(r'```(?:json)?\s*([\s\S]*?)\s*```', ·)`. -/
def extractFenced : List Char → Option (List Char)
  | [] => Option.none
  | c :: cs =>
    if fenceHead (c :: cs) then
      match fenceInterior (dropTag ((c :: cs).drop 3)) with
      | some w => some w
      | Option.none => extractFenced cs
    else extractFenced cs

/-- The match of `re.search(r'\{[\s\S]*\}', ·)`: first `{` through last `}`. -/
def extractBraces (l : List Char) : Option (List Char) :=
  match l.findIdx? (fun c => c = '\x7b') with
  | Option.none => Option.none
  | some i =>
    match l.reverse.findIdx? (fun c => c = '\x7d') with
    | Option.none => Option.none
    | some rj =>
      let j := l.length - 1 - rj
      if i < j then some ((l.drop i).take (j - i + 1)) else Option.none

/-! ### `parse_json_response` (gemini_service.py lines 85-117) -/

/-- The error structure returned when every parse strategy fails
(lines 112-117): `response_text[:1000]` is the first 1000 characters. -/
def parseFailure (response_text : String) : PyVal :=
  .dict [("error", .bool true),
         ("error_type", .str "parse_error"),
         ("message", .str "Failed to parse JSON response"),
         ("raw_response", .str (String.mk (response_text.data.take 1000)))]

/-- Strategy 3 and the final fallback (lines 103-117). -/
def parseStep3 (response_text : String) : PyVal :=
  match extractBraces response_text.data with
  | some span =>
    match json_loads (String.mk span) with
    | some v => v
    | Option.none => parseFailure response_text
  | Option.none => parseFailure response_text

/-- Strategy 2 with fallthrough (lines 95-101). -/
def parseStep2 (response_text : String) : PyVal :=
  match extractFenced response_text.data with
  | some interior =>
    match json_loads (String.mk interior) with
    | some v => v
    | Option.none => parseStep3 response_text
  | Option.none => parseStep3 response_text

/-- `parse_json_response` (lines 85-117): direct parse, then markdown code
block, then brace span, then the `parse_error` structure.  Each `try/except
json.JSONDecodeError: pass` block is modelled by the `Option` failure of
`json_loads` falling through to the next strategy; the function itself never
fails. -/
def parse_json_response (response_text : String) : PyVal :=
  match json_loads response_text with
  | some v => v
  | Option.none => parseStep2 response_text

/-- Modelled from the spec (§4.1): the Response Extractor reference
algorithm, "tried in strict order, first success wins": (1) parse the entire
string as JSON; (2) search for a fenced code block (optionally tagged
`json`) and parse its interior; (3) search for the first `{` through the
last `}` (greedy span) and parse that substring; (4) if all fail, return a
parse-failure object with error kind `parse_error`, a fixed explanatory
message, and the first 1000 characters of the raw input. -/
def extractorSpec (raw : String) : PyVal :=
  match json_loads raw with
  | some v => v
  | Option.none =>
    match (extractFenced raw.data).bind (fun interior => json_loads (String.mk interior)) with
    | some v => v
    | Option.none =>
      match (extractBraces raw.data).bind (fun span => json_loads (String.mk span)) with
      | some v => v
      | Option.none =>
        .dict [("error", .bool true),
               ("error_type", .str "parse_error"),
               ("message", .str "Failed to parse JSON response"),
               ("raw_response", .str (String.mk (raw.data.take 1000)))]

example : parse_json_response "noise \x60\x60\x60json\n\x7b\"a\":1\x7d\n\x60\x60\x60 trailing"
    = .dict [("a", .int 1)] := rfl

example : parse_json_response "not json at all"
    = .dict [("error", .bool true), ("error_type", .str "parse_error"),
             ("message", .str "Failed to parse JSON response"),
             ("raw_response", .str "not json at all")] := rfl

example : parse_json_response "preamble \x7b\"k\": [1, 2]\x7d post"
    = .dict [("k", .list [.int 1, .int 2])] := rfl

/-! ### `validate_and_enrich_response` (gemini_service.py lines 120-189)

The function is embedded as three stages composed in source order: the
defaults merge (lines 160-167), the zone recomputation (lines 169-179) and
the interpretation-line truncation (lines 181-187).  Python's in-place dict
mutation is value-level update here (object aliasing is outside the value
model).  A raised exception becomes `Except.error` carrying `str(e)`. -/

/-- The `defaults` literal (lines 125-158), verbatim. -/
def defaults : PyDict :=
  [("pet_detected", .bool true),
   ("species", .str "unknown"),
   ("breed_detected", .str "unknown"),
   ("morphology_type", .str "standard"),
   ("morphology_adjustments_applied", .list []),
   ("video_type", .str "single_shot"),
   ("video_context", .str "Pet video analysis"),
   ("overall_assessment", .dict
     [("distress_score", .int 50),
      ("zone", .str "yellow"),
      ("zone_label", .str "MODERATE"),
      ("confidence", .str "medium"),
      ("primary_state", .str "alert"),
      ("summary", .str "Analysis in progress")]),
   ("visual_analysis", .dict
     [("facs_codes_detected", .list []),
      ("key_observations", .list []),
      ("body_posture", .str "Not assessed"),
      ("confidence", .str "medium")]),
   ("audio_analysis", .dict
     [("vocalizations_detected", .list []),
      ("solicitation_purr_detected", .bool false)]),
   ("timeline", .list []),
   ("interpret_lines", .list []),
   ("advisory", .dict
     [("headline", .str "Continue monitoring"),
      ("detailed_recommendations", .list []),
      ("urgency", .str "routine")])]

/-- One level of key-wise backfill into a present sub-dict (lines 165-167):
each default sub-key missing from the input's sub-dict is appended, in
default order; present sub-keys are left untouched. -/
def mergeSub (mm dd : PyDict) : PyDict :=
  dd.foldl (fun acc p => if pyContains acc p.1 then acc else acc ++ [p]) mm

/-- One iteration of the defaults loop (lines 161-167). -/
def mergeStep (acc : PyDict) (p : String × PyVal) : PyDict :=
  if pyContains acc p.1 then
    match p.2, pyLookup acc p.1 with
    | .dict dd, some (.dict mm) => pyInsert p.1 (.dict (mergeSub mm dd)) acc
    | _, _ => acc
  else acc ++ [p]

/-- The whole defaults merge (lines 160-167). -/
def mergeTop (r : PyDict) : PyDict :=
  defaults.foldl mergeStep r

/-- Python `v <= n` for an `int` literal `n`: `int`, `bool` and `float`
compare numerically, everything else raises `TypeError`. -/
def pyLeInt (v : PyVal) (n : Int) : Except String Bool :=
  match v with
  | .int m => .ok (decide (m ≤ n))
  | .bool b => .ok (decide ((if b then (1 : Int) else 0) ≤ n))
  | .float q => .ok (decide (q ≤ (n : Rat)))
  | v => .error ("TypeError: '<=' not supported between instances of '" ++ typeName v ++ "' and 'int'")

/-- The threshold chain of lines 171-179, as `(zone, zone_label)`. -/
def zoneOf (d : PyVal) : Except String (String × String) :=
  match pyLeInt d 33 with
  | .error e => .error e
  | .ok true => .ok ("green", "LOW")
  | .ok false =>
    match pyLeInt d 66 with
    | .error e => .error e
    | .ok true => .ok ("yellow", "MODERATE")
    | .ok false => .ok ("red", "ELEVATED")

/-- Zone recomputation (lines 169-179): read
`result.get("overall_assessment", {}).get("distress_score", 50)` — an
`AttributeError` if the present value is not a dict — compare it against the
thresholds — a `TypeError` if it is not a number — then assign `zone` and
`zone_label` into the sub-dict (a `KeyError` if the key is absent, which the
merge rules out for `validate_and_enrich_response` itself). -/
def fixZone (r : PyDict) : Except String PyDict :=
  match pyLookup r "overall_assessment" with
  | Option.none =>
    match zoneOf (.int 50) with
    | .error e => .error e
    | .ok _ => .error "KeyError: 'overall_assessment'"
  | some (.dict oa) =>
    let d := (pyLookup oa "distress_score").getD (.int 50)
    match zoneOf d with
    | .error e => .error e
    | .ok zz =>
      .ok (pyInsert "overall_assessment"
            (.dict (pyInsert "zone_label" (.str zz.2) (pyInsert "zone" (.str zz.1) oa))) r)
  | some v => .error ("AttributeError: '" ++ typeName v ++ "' object has no attribute 'get'")

/-! ### Interpretation-line truncation (lines 181-187) -/

/-- Python `str.split()` word splitting: split on whitespace runs, discard
empties.  `pySplitGo` carries the (reversed) word being accumulated. -/
def pySplitGo : List Char → List Char → List (List Char)
  | [], acc => if acc.isEmpty then [] else [acc.reverse]
  | c :: cs, acc =>
    if isPySpace c then
      if acc.isEmpty then pySplitGo cs [] else acc.reverse :: pySplitGo cs []
    else pySplitGo cs (c :: acc)

def pySplit (l : List Char) : List (List Char) := pySplitGo l []

/-- Python `" ".join(words)`. -/
def joinSpace : List (List Char) → List Char
  | [] => []
  | [w] => w
  | w :: ws => w ++ ' ' :: joinSpace ws

/-- Substring test (Python `needle in haystack` on strings). -/
def containsSeq (pat : List Char) : List Char → Bool
  | [] => pat.isEmpty
  | c :: t => pat.isPrefixOf (c :: t) || containsSeq pat t

def fpiKey : String := "first_person_interpretation"

/-- The loop body of lines 183-187 on one entry of `interpret_lines`.
A dict entry with a string text field over 6 words is truncated to the first
6 words joined by single spaces; 6 or fewer words pass unchanged; a non-dict
entry reproduces what the Python membership test / item access does on that
type (`in` on a string is a substring test, on a list a membership test; item
access with a string key then raises on both; `in` on the other types raises
immediately; a present non-string text field makes `.split()` raise). -/
def truncLine : PyVal → Except String PyVal
  | .dict m =>
    match pyLookup m fpiKey with
    | Option.none => .ok (.dict m)
    | some (.str s) =>
      let ws := pySplit s.data
      if 6 < ws.length then
        .ok (.dict (pyInsert fpiKey (.str (String.mk (joinSpace (ws.take 6)))) m))
      else .ok (.dict m)
    | some v => .error ("AttributeError: '" ++ typeName v ++ "' object has no attribute 'split'")
  | .list xs =>
    if xs.any (fun x => match x with | .str s => s = fpiKey | _ => false) then
      .error "TypeError: list indices must be integers or slices, not str"
    else .ok (.list xs)
  | .str s =>
    if containsSeq fpiKey.data s.data then .error "TypeError: string indices must be integers"
    else .ok (.str s)
  | v => .error ("TypeError: argument of type '" ++ typeName v ++ "' is not iterable")

/-- `for line in result["interpret_lines"]` with the loop body above.
Iterating a list visits its entries; iterating a dict visits its keys
(strings, where the membership test is a substring test — a key containing
the text-field name raises at the subsequent item access, any other key is
left alone); iterating a string visits its one-character substrings (the
27-character field name is never a substring of those, so nothing happens);
every other type refuses iteration. -/
def mapLines : List PyVal → Except String (List PyVal)
  | [] => .ok []
  | x :: xs =>
    match truncLine x with
    | .error e => .error e
    | .ok x' =>
      match mapLines xs with
      | .error e => .error e
      | .ok xs' => .ok (x' :: xs')

def iterTruncate : PyVal → Except String PyVal
  | .list xs =>
    match mapLines xs with
    | .error e => .error e
    | .ok xs' => .ok (.list xs')
  | .dict m =>
    if m.any (fun kv => containsSeq fpiKey.data kv.1.data) then
      .error "TypeError: string indices must be integers"
    else .ok (.dict m)
  | .str s => .ok (.str s)
  | v => .error ("TypeError: '" ++ typeName v ++ "' object is not iterable")

/-- Lines 181-187: when `interpret_lines` is present, run the loop over its
value (entry mutation is value replacement here). -/
def truncStage (r : PyDict) : Except String PyDict :=
  match pyLookup r "interpret_lines" with
  | Option.none => .ok r
  | some v =>
    match iterTruncate v with
    | .error e => .error e
    | .ok v' => .ok (pyInsert "interpret_lines" v' r)

/-- `validate_and_enrich_response` (lines 120-189): defaults merge, zone
recomputation, line truncation, in source order. -/
def validate_and_enrich_response (r : PyDict) : Except String PyDict :=
  match fixZone (mergeTop r) with
  | .error e => .error e
  | .ok m2 => truncStage m2

example :
    validate_and_enrich_response
      [("overall_assessment", .dict [("distress_score", .int 10), ("zone", .str "red")])]
    = .ok [("overall_assessment", .dict
             [("distress_score", .int 10), ("zone", .str "green"),
              ("zone_label", .str "LOW"), ("confidence", .str "medium"),
              ("primary_state", .str "alert"), ("summary", .str "Analysis in progress")]),
           ("pet_detected", .bool true),
           ("species", .str "unknown"),
           ("breed_detected", .str "unknown"),
           ("morphology_type", .str "standard"),
           ("morphology_adjustments_applied", .list []),
           ("video_type", .str "single_shot"),
           ("video_context", .str "Pet video analysis"),
           ("visual_analysis", .dict
             [("facs_codes_detected", .list []),
              ("key_observations", .list []),
              ("body_posture", .str "Not assessed"),
              ("confidence", .str "medium")]),
           ("audio_analysis", .dict
             [("vocalizations_detected", .list []),
              ("solicitation_purr_detected", .bool false)]),
           ("timeline", .list []),
           ("interpret_lines", .list []),
           ("advisory", .dict
             [("headline", .str "Continue monitoring"),
              ("detailed_recommendations", .list []),
              ("urgency", .str "routine")])] := rfl

example :
    truncLine (.dict [("first_person_interpretation", .str "one two three four five six seven")])
    = .ok (.dict [("first_person_interpretation", .str "one two three four five six")]) := rfl

example : (validate_and_enrich_response [("overall_assessment", .int 3)]).isOk = false := rfl
example : (validate_and_enrich_response [("interpret_lines", .int 5)]).isOk = false := rfl
example : (validate_and_enrich_response [("visual_analysis", .int 5)]).isOk = true := rfl

/-! ### `analyze_video` (gemini_service.py lines 192-302)

The remote Gemini collaborator is opaque: an environment records whether the
API key is configured, what the upload call does (raise, or finish polling
in some terminal state), and what the inference call does (raise, or return
response text).  `analyze_video`'s observable outcome is its returned value
plus whether the inference capability was ever invoked (the file-cleanup
`finally` block only prints and swallows its own errors, so it has no
observable effect on the result).  The `use_cache` parameter is carried but,
as in the source, never read. -/

structure GeminiEnv where
  apiKeyPresent : Bool
  /-- `str(e)` when `genai.upload_file`/`get_file` themselves raise. -/
  uploadExc : Option String
  /-- terminal `video_file.state.name` once polling leaves `PROCESSING`. -/
  finalState : String
  /-- inference outcome: `str(e)` of a raised exception, or the response text. -/
  inferOutcome : Except String String

structure AnalyzeOut where
  result : PyVal
  inferInvoked : Bool

/-- `upload_video_to_gemini` (lines 22-54): propagate an SDK exception;
after polling, a `FAILED` terminal state raises
`ValueError(f"Video processing failed: {video_file.state.name}")`. -/
def upload_video_to_gemini (env : GeminiEnv) : Except String Unit :=
  match env.uploadExc with
  | some e => .error e
  | Option.none =>
    if env.finalState = "FAILED" then
      .error ("Video processing failed: " ++ env.finalState)
    else .ok ()

/-- The `except Exception` handler's return value (lines 287-293). -/
def failDict (msg : String) : PyVal :=
  .dict [("error", .bool true),
         ("error_type", .str "analysis_failed"),
         ("message", .str msg),
         ("_model_used", .str "gemini-2.0-flash"),
         ("_from_cache", .bool false)]

/-- The no-pet return value (lines 258-264). -/
def noPetDict (m : PyDict) : PyVal :=
  .dict [("error", .bool true),
         ("error_type", .str "no_pet_detected"),
         ("message", (pyLookup m "message").getD (.str "No pet detected in video")),
         ("_model_used", .str "gemini-2.0-flash"),
         ("_from_cache", .bool false)]

/-- Python truthiness (the `if result.get("error")` test). -/
def truthy : PyVal → Bool
  | .bool b => b
  | .int n => decide (n ≠ 0)
  | .float q => decide (q ≠ 0)
  | .str s => !s.isEmpty
  | .none => false
  | .list xs => !xs.isEmpty
  | .dict m => !m.isEmpty

/-- Python `v == "parse_error"` (equality with a string literal: only a
string of the same characters compares equal, no exception). -/
def pyEqParseError : PyVal → Bool
  | .str s => s = "parse_error"
  | _ => false

/-- Python `v == False`: `False`, `0` and `0.0` compare equal to `False`. -/
def pyIsFalse : PyVal → Bool
  | .bool b => b = false
  | .int n => n = 0
  | .float q => q = 0
  | _ => false

/-- Metadata attachment (lines 270-272), in assignment order. -/
def withMeta (m : PyDict) : PyDict :=
  pyInsert "_analysis_version" (.str "etho-v13-gemini")
    (pyInsert "_from_cache" (.bool false)
      (pyInsert "_model_used" (.str "gemini-2.0-flash") m))

/-- Lines 256-280: the subject-detection check and the normalize-and-return
tail, given the extracted mapping (reached only when the in-band parse-error
check of lines 252-254 did not fire). -/
def petCheckCont (m : PyDict) : AnalyzeOut :=
  if pyIsFalse (pyGet m "pet_detected") then
    ⟨noPetDict m, true⟩
  else
    match validate_and_enrich_response m with
    | .error e => ⟨failDict e, true⟩
    | .ok m2 => ⟨.dict (withMeta m2), true⟩

/-- `analyze_video` (lines 192-302).  `video_path` and `use_cache` are the
source's parameters; `use_cache` is never read.  The big `try/except`
converts any raised exception into the `analysis_failed` dict: a missing API
key (line 212), an upload-stage exception or terminal `FAILED` state
(line 216), an inference exception (line 248), a `.get` `AttributeError`
when the extracted value is not a dict (line 252), or an exception out of
`validate_and_enrich_response` (line 267). -/
def analyze_video (env : GeminiEnv) (video_path : String) (use_cache : Bool) : AnalyzeOut :=
  if env.apiKeyPresent = false then
    ⟨failDict "GEMINI_API_KEY environment variable not set", false⟩
  else
    match upload_video_to_gemini env with
    | .error e => ⟨failDict e, false⟩
    | .ok _ =>
      match env.inferOutcome with
      | .error e => ⟨failDict e, true⟩
      | .ok response_text =>
        match parse_json_response response_text with
        | .dict m =>
          if truthy (pyGet m "error") && pyEqParseError (pyGet m "error_type") then
            ⟨.dict m, true⟩
          else petCheckCont m
        | v => ⟨failDict ("'" ++ typeName v ++ "' object has no attribute 'get'"), true⟩

example :
    (analyze_video ⟨true, Option.none, "FAILED", .ok "x"⟩ "v.mp4" true).result
    = failDict "Video processing failed: FAILED" := rfl

example :
    (analyze_video ⟨true, Option.none, "ACTIVE",
        .ok "\x7b\"pet_detected\": false, \"message\": \"no animal\"\x7d"⟩ "v.mp4" true).result
    = noPetDict [("pet_detected", .bool false), ("message", .str "no animal")] := rfl

example :
    analyze_video ⟨true, Option.none, "ACTIVE",
        .ok "\x7b\"pet_detected\": false, \"error\": true, \"error_type\": \"parse_error\"\x7d"⟩
      "v.mp4" true
    = ⟨.dict [("pet_detected", .bool false), ("error", .bool true),
              ("error_type", .str "parse_error")], true⟩ := rfl

/-! ### Dictionary lemmas -/

theorem pyLookup_pyInsert_same (m : PyDict) (k : String) (v : PyVal) :
    pyLookup (pyInsert k v m) k = some v := by
  induction m with
  | nil => simp [pyInsert, pyLookup]
  | cons p t ih =>
    by_cases h : k = p.1
    · simp [pyInsert, pyLookup, h]
    · simp [pyInsert, pyLookup, h, ih]

theorem pyLookup_pyInsert_other (m : PyDict) (k k' : String) (v : PyVal) (h : k ≠ k') :
    pyLookup (pyInsert k' v m) k = pyLookup m k := by
  induction m with
  | nil => simp [pyInsert, pyLookup, h]
  | cons p t ih =>
    by_cases h2 : k' = p.1
    · subst h2
      simp [pyInsert, pyLookup, h]
    · by_cases h3 : k = p.1
      · simp [pyInsert, pyLookup, h2, h3]
      · simp [pyInsert, pyLookup, h2, h3, ih]

theorem pyInsert_self (m : PyDict) (k : String) (v : PyVal)
    (h : pyLookup m k = some v) : pyInsert k v m = m := by
  induction m with
  | nil => simp [pyLookup] at h
  | cons p t ih =>
    obtain ⟨k2, v2⟩ := p
    by_cases h2 : k = k2
    · subst h2
      simp [pyLookup] at h
      simp [pyInsert, h]
    · simp [pyLookup, h2] at h
      simp [pyInsert, h2, ih h]

theorem pyLookup_append (m m' : PyDict) (k : String) :
    pyLookup (m ++ m') k =
      match pyLookup m k with
      | some v => some v
      | Option.none => pyLookup m' k := by
  induction m with
  | nil => simp [pyLookup]
  | cons p t ih =>
    by_cases h : k = p.1
    · simp [pyLookup, h]
    · simp [pyLookup, h, ih]

theorem pyLookup_mem (m : PyDict) (k : String) (v : PyVal)
    (h : pyLookup m k = some v) : (k, v) ∈ m := by
  induction m with
  | nil => simp [pyLookup] at h
  | cons p t ih =>
    obtain ⟨k2, v2⟩ := p
    by_cases h2 : k = k2
    · subst h2
      simp [pyLookup] at h
      subst h
      exact List.mem_cons_self _ _
    · simp [pyLookup, h2] at h
      exact List.mem_cons_of_mem _ (ih h)

/-! ### Claim C8: the cache flag is inert -/

/-- C8: for every remote-environment behaviour and every media path, calling
the entry point with `use_cache = true` and with `use_cache = false` yields
identical results — the flag is never read. -/
theorem use_cache_inert (env : GeminiEnv) (video_path : String) :
    analyze_video env video_path true = analyze_video env video_path false := rfl

/-! ### Claim C2: the extractor equals the spec's reference algorithm -/

/-- C2: the extractor equals the spec's four-strategy reference definition on
every input string (strict order, first success wins, no exception escapes —
totality is by construction); on the fenced example it returns the parsed
interior; on unparseable text it returns the `parse_error` structure whose
fixed message is non-empty and whose raw snippet is the (un-truncated,
15-character) input itself. -/
theorem extractor_matches_spec :
    (∀ t : String, parse_json_response t = extractorSpec t) ∧
    parse_json_response "noise \x60\x60\x60json\n\x7b\"a\":1\x7d\n\x60\x60\x60 trailing"
      = .dict [("a", .int 1)] ∧
    parse_json_response "not json at all"
      = .dict [("error", .bool true), ("error_type", .str "parse_error"),
               ("message", .str "Failed to parse JSON response"),
               ("raw_response", .str "not json at all")] ∧
    "Failed to parse JSON response" ≠ "" := by
  refine ⟨fun t => ?_, rfl, rfl, by decide⟩
  unfold parse_json_response extractorSpec parseStep2 parseStep3 parseFailure
  cases hj : json_loads t
  · cases hf : extractFenced t.data
    · simp [Option.bind]
      cases hb : extractBraces t.data
      · simp
      · simp
    · simp [Option.bind]
      cases hi : json_loads (String.mk _)
      · cases hb : extractBraces t.data
        · simp
        · simp
      · simp
  · simp

/-! ### Claim C7: failed ingestion short-circuits before inference -/

/-- C7: when the remote submission reports the terminal `FAILED` state, the
orchestrator returns (rather than raises) the `analysis_failed` error dict
carrying the fault's message `"Video processing failed: FAILED"`, and the
remote inference capability is never invoked (`inferInvoked = false`). -/
theorem failed_ingestion_returns_analysis_failed (env : GeminiEnv)
    (video_path : String) (use_cache : Bool)
    (hkey : env.apiKeyPresent = true) (hexc : env.uploadExc = Option.none)
    (hst : env.finalState = "FAILED") :
    analyze_video env video_path use_cache
      = ⟨failDict "Video processing failed: FAILED", false⟩ := by
  simp [analyze_video, upload_video_to_gemini, hkey, hexc, hst]

/-- C7 witness: a concrete environment whose upload polling ends `FAILED`. -/
theorem failed_ingestion_witness :
    analyze_video ⟨true, Option.none, "FAILED", .ok "unused"⟩ "clip.mp4" true
      = ⟨failDict "Video processing failed: FAILED", false⟩ :=
  failed_ingestion_returns_analysis_failed
    ⟨true, Option.none, "FAILED", .ok "unused"⟩ "clip.mp4" true rfl rfl rfl

/-! ### Claim C6: `pet_detected: false` short-circuit

The claim as stated is false: the in-band parse-error check (lines 252-254)
runs before the subject-detection check (line 257), so an extracted mapping
that carries `pet_detected: false` *and* a truthy `error` with `error_type`
`"parse_error"` is returned as a parse failure, not as `no_pet_detected`. -/

/-- C6 counterexample: remote text that parses as a mapping carrying
`pet_detected: false` (the claim's antecedent) on which the orchestrator
returns the mapping itself, tagged `parse_error` — not an ErrorResult tagged
`no_pet_detected`. -/
theorem no_subject_claim_counterexample :
    parse_json_response
        "\x7b\"pet_detected\": false, \"error\": true, \"error_type\": \"parse_error\"\x7d"
      = .dict [("pet_detected", .bool false), ("error", .bool true),
               ("error_type", .str "parse_error")] ∧
    analyze_video
        ⟨true, Option.none, "ACTIVE",
         .ok "\x7b\"pet_detected\": false, \"error\": true, \"error_type\": \"parse_error\"\x7d"⟩
        "v.mp4" true
      = ⟨.dict [("pet_detected", .bool false), ("error", .bool true),
                ("error_type", .str "parse_error")], true⟩ ∧
    pyLookup [(("pet_detected" : String), PyVal.bool false), ("error", .bool true),
              ("error_type", .str "parse_error")] "error_type"
      = some (.str "parse_error") ∧
    ("parse_error" : String) ≠ "no_pet_detected" :=
  ⟨rfl, rfl, rfl, by decide⟩

/-- C6 amended: whenever the extracted mapping carries the boolean
`pet_detected: false` *and is not an in-band parse-failure signal* (truthy
`error` with `error_type = "parse_error"`), the orchestrator short-circuits
and returns the ErrorResult tagged `no_pet_detected` — never an
AnalysisResult — whose message is the remote-supplied one (generic fallback
when absent) together with run metadata, and with inference marked invoked. -/
theorem no_subject_short_circuit (env : GeminiEnv) (video_path : String)
    (use_cache : Bool) (text : String) (m : PyDict)
    (hkey : env.apiKeyPresent = true) (hexc : env.uploadExc = Option.none)
    (hst : env.finalState ≠ "FAILED") (hinf : env.inferOutcome = .ok text)
    (hparse : parse_json_response text = .dict m)
    (hnotpe : ¬(truthy (pyGet m "error") = true ∧ pyEqParseError (pyGet m "error_type") = true))
    (hpet : pyLookup m "pet_detected" = some (.bool false)) :
    analyze_video env video_path use_cache = ⟨noPetDict m, true⟩ := by
  have hb : (truthy (pyGet m "error") && pyEqParseError (pyGet m "error_type")) = false := by
    cases h1 : truthy (pyGet m "error") <;> cases h2 : pyEqParseError (pyGet m "error_type") <;>
      simp_all
  have hpg : pyGet m "pet_detected" = .bool false := by simp [pyGet, hpet]
  simp [analyze_video, upload_video_to_gemini, hkey, hexc, hst, hinf, hparse, hb,
        petCheckCont, hpg, pyIsFalse]

/-- C6 amended witness: remote text declaring no pet, with a message. -/
theorem no_subject_witness :
    analyze_video
        ⟨true, Option.none, "ACTIVE",
         .ok "\x7b\"pet_detected\": false, \"message\": \"no animal\"\x7d"⟩
        "v.mp4" true
      = ⟨noPetDict [("pet_detected", .bool false), ("message", .str "no animal")], true⟩ :=
  no_subject_short_circuit
    ⟨true, Option.none, "ACTIVE",
     .ok "\x7b\"pet_detected\": false, \"message\": \"no animal\"\x7d"⟩
    "v.mp4" true "\x7b\"pet_detected\": false, \"message\": \"no animal\"\x7d"
    [("pet_detected", .bool false), ("message", .str "no animal")]
    rfl rfl (by decide) rfl rfl (by decide) rfl

/-! ### Claim C10: the parse-failure signal is in-band -/

/-- C10: whenever the extracted mapping itself carries a truthy `error` key
with `error_type = "parse_error"` — however it was produced, including from
successfully parsed remote JSON — the orchestrator returns that mapping
unchanged (no normalization, no metadata); with a truthy `error` key and any
other `error_type` it is not treated as a failure and proceeds through the
subject-detection check and normalization (`petCheckCont`). -/
theorem parse_error_signal_in_band (env : GeminiEnv) (video_path : String)
    (use_cache : Bool) (text : String) (m : PyDict)
    (hkey : env.apiKeyPresent = true) (hexc : env.uploadExc = Option.none)
    (hst : env.finalState ≠ "FAILED") (hinf : env.inferOutcome = .ok text)
    (hparse : parse_json_response text = .dict m) :
    (truthy (pyGet m "error") = true → pyEqParseError (pyGet m "error_type") = true →
      analyze_video env video_path use_cache = ⟨.dict m, true⟩) ∧
    (truthy (pyGet m "error") = true → pyEqParseError (pyGet m "error_type") = false →
      analyze_video env video_path use_cache = petCheckCont m) := by
  constructor
  · intro h1 h2
    simp [analyze_video, upload_video_to_gemini, hkey, hexc, hst, hinf, hparse, h1, h2]
  · intro h1 h2
    simp [analyze_video, upload_video_to_gemini, hkey, hexc, hst, hinf, hparse, h1, h2]

/-- C10 witness: a parsed mapping with the in-band signal is returned as-is
(first conjunct); one with `error_type = "other"` proceeds to the
subject-detection check and normalization (second conjunct). -/
theorem parse_error_signal_witness :
    analyze_video
        ⟨true, Option.none, "ACTIVE",
         .ok "\x7b\"error\": true, \"error_type\": \"parse_error\", \"x\": 1\x7d"⟩
        "v.mp4" true
      = ⟨.dict [("error", .bool true), ("error_type", .str "parse_error"),
                ("x", .int 1)], true⟩ ∧
    analyze_video
        ⟨true, Option.none, "ACTIVE",
         .ok "\x7b\"error\": true, \"error_type\": \"other\"\x7d"⟩
        "v.mp4" true
      = petCheckCont [("error", .bool true), ("error_type", .str "other")] :=
  ⟨(parse_error_signal_in_band
      ⟨true, Option.none, "ACTIVE",
       .ok "\x7b\"error\": true, \"error_type\": \"parse_error\", \"x\": 1\x7d"⟩
      "v.mp4" true "\x7b\"error\": true, \"error_type\": \"parse_error\", \"x\": 1\x7d"
      [("error", .bool true), ("error_type", .str "parse_error"), ("x", .int 1)]
      rfl rfl (by decide) rfl rfl).1 rfl rfl,
   (parse_error_signal_in_band
      ⟨true, Option.none, "ACTIVE",
       .ok "\x7b\"error\": true, \"error_type\": \"other\"\x7d"⟩
      "v.mp4" true "\x7b\"error\": true, \"error_type\": \"other\"\x7d"
      [("error", .bool true), ("error_type", .str "other")]
      rfl rfl (by decide) rfl rfl).2 rfl rfl⟩

/-! ### Characterizing the defaults merge -/

theorem pyContains_append (a b : PyDict) (k : String) :
    pyContains (a ++ b) k = (pyContains a k || pyContains b k) := by
  simp only [pyContains, pyLookup_append]
  cases h : pyLookup a k <;> simp

theorem mergeSub_cons (mm : PyDict) (p : String × PyVal) (dd : PyDict) :
    mergeSub mm (p :: dd)
      = mergeSub (if pyContains mm p.1 then mm else mm ++ [p]) dd := rfl

/-- Lookup through the sub-dict backfill: a present sub-key keeps its value,
a missing one gets the (first) default. -/
theorem mergeSub_lookup (dd : PyDict) (mm : PyDict) (k : String) :
    pyLookup (mergeSub mm dd) k =
      match pyLookup mm k with
      | some v => some v
      | Option.none => pyLookup dd k := by
  induction dd generalizing mm with
  | nil =>
    simp only [mergeSub, List.foldl_nil]
    cases h : pyLookup mm k <;> simp [pyLookup]
  | cons p dd ih =>
    obtain ⟨k2, v2⟩ := p
    rw [mergeSub_cons]
    by_cases hc : pyContains mm k2
    · rw [if_pos hc, ih mm]
      by_cases hk : k = k2
      · subst hk
        have hsome : ∃ v, pyLookup mm k = some v := by
          unfold pyContains at hc
          cases h : pyLookup mm k
          · rw [h] at hc; simp at hc
          · exact ⟨_, rfl⟩
        obtain ⟨v, hv⟩ := hsome
        rw [hv]
      · have h2 : pyLookup ((k2, v2) :: dd) k = pyLookup dd k := by
          simp [pyLookup, hk]
        rw [h2]
    · rw [if_neg hc, ih (mm ++ [(k2, v2)]), pyLookup_append]
      by_cases hk : k = k2
      · subst hk
        have hnone : pyLookup mm k = Option.none := by
          unfold pyContains at hc
          cases h : pyLookup mm k
          · rfl
          · rw [h] at hc; simp at hc
        rw [hnone]
        simp [pyLookup]
      · have h1 : pyLookup [(k2, v2)] k = (Option.none : Option PyVal) := by
          simp [pyLookup, hk]
        have h2 : pyLookup ((k2, v2) :: dd) k = pyLookup dd k := by
          simp [pyLookup, hk]
        rw [h1, h2]
        cases h : pyLookup mm k <;> rfl

/-- With distinct default sub-keys the backfill is exactly "append the
missing sub-keys, in default order" (claim C3's description). -/
theorem mergeSub_filter (dd : PyDict) (mm : PyDict)
    (hnd : (dd.map Prod.fst).Nodup) :
    mergeSub mm dd = mm ++ dd.filter (fun p => !(pyContains mm p.1)) := by
  induction dd generalizing mm with
  | nil => simp [mergeSub]
  | cons p dd ih =>
    obtain ⟨k2, v2⟩ := p
    simp only [List.map_cons, List.nodup_cons] at hnd
    obtain ⟨hk2, hnd'⟩ := hnd
    rw [mergeSub_cons]
    by_cases hc : pyContains mm k2
    · rw [if_pos hc, ih mm hnd']
      have hf : List.filter (fun p => !(pyContains mm p.1)) ((k2, v2) :: dd)
          = List.filter (fun p => !(pyContains mm p.1)) dd := by
        rw [List.filter_cons]
        simp [hc]
      rw [hf]
    · rw [if_neg hc, ih (mm ++ [(k2, v2)]) hnd']
      have hfeq : dd.filter (fun p => !(pyContains (mm ++ [(k2, v2)]) p.1))
          = dd.filter (fun p => !(pyContains mm p.1)) := by
        apply List.filter_congr
        intro p hp
        have hne : p.1 ≠ k2 := by
          intro he
          exact hk2 (he ▸ List.mem_map_of_mem Prod.fst hp)
        rw [pyContains_append]
        have hone : pyContains [(k2, v2)] p.1 = false := by
          simp [pyContains, pyLookup, hne]
        rw [hone, Bool.or_false]
      rw [hfeq]
      have hf : List.filter (fun p => !(pyContains mm p.1)) ((k2, v2) :: dd)
          = (k2, v2) :: List.filter (fun p => !(pyContains mm p.1)) dd := by
        rw [List.filter_cons]
        simp [hc]
      rw [hf, List.append_assoc]
      rfl

/-- What one top-level lookup sees after the whole merge. -/
def mergeSpec (rv dv : Option PyVal) : Option PyVal :=
  match rv, dv with
  | some (.dict mm), some (.dict dd) => some (.dict (mergeSub mm dd))
  | some v, _ => some v
  | Option.none, some d => some d
  | Option.none, Option.none => Option.none

theorem foldl_mergeStep_lookup (ds : PyDict) (r : PyDict) (k : String)
    (hnd : (ds.map Prod.fst).Nodup) :
    pyLookup (ds.foldl mergeStep r) k = mergeSpec (pyLookup r k) (pyLookup ds k) := by
  induction ds generalizing r with
  | nil =>
    simp only [List.foldl_nil, pyLookup, mergeSpec]
    cases h : pyLookup r k with
    | none => rfl
    | some v => cases v <;> rfl
  | cons p ds ih =>
    obtain ⟨k2, d⟩ := p
    simp only [List.map_cons, List.nodup_cons] at hnd
    obtain ⟨hk2, hnd'⟩ := hnd
    simp only [List.foldl_cons]
    rw [ih _ hnd']
    by_cases hk : k = k2
    · subst hk
      have hds : pyLookup ds k = Option.none := by
        cases h : pyLookup ds k with
        | none => rfl
        | some v => exact absurd (List.mem_map_of_mem Prod.fst (pyLookup_mem _ _ _ h)) hk2
      rw [hds]
      have hcons : pyLookup ((k, d) :: ds) k = some d := by simp [pyLookup]
      rw [hcons]
      unfold mergeStep
      by_cases hc : pyContains r k
      · simp only [hc, ite_true]
        simp only [pyContains] at hc
        cases hr : pyLookup r k with
        | none => rw [hr] at hc; simp at hc
        | some v =>
          cases v with
          | dict mm =>
            cases d with
            | dict dd =>
              rw [pyLookup_pyInsert_same]
              simp [mergeSpec]
            | str s => simp [mergeSpec, hr]
            | int n => simp [mergeSpec, hr]
            | float q => simp [mergeSpec, hr]
            | bool b => simp [mergeSpec, hr]
            | none => simp [mergeSpec, hr]
            | list xs => simp [mergeSpec, hr]
          | str s => cases d <;> simp [mergeSpec, hr]
          | int n => cases d <;> simp [mergeSpec, hr]
          | float q => cases d <;> simp [mergeSpec, hr]
          | bool b => cases d <;> simp [mergeSpec, hr]
          | none => cases d <;> simp [mergeSpec, hr]
          | list xs => cases d <;> simp [mergeSpec, hr]
      · simp only [hc, ite_false, Bool.false_eq_true, not_false_iff]
        simp only [pyContains] at hc
        cases hr : pyLookup r k with
        | some v => rw [hr] at hc; simp at hc
        | none =>
          rw [pyLookup_append, hr]
          simp [pyLookup, mergeSpec]
    · have hcons : pyLookup ((k2, d) :: ds) k = pyLookup ds k := by simp [pyLookup, hk]
      rw [hcons]
      have hstep : pyLookup (mergeStep r (k2, d)) k = pyLookup r k := by
        unfold mergeStep
        by_cases hc : pyContains r k2
        · simp only [hc, ite_true]
          cases d with
          | dict dd =>
            cases hr2 : pyLookup r k2 with
            | none => rfl
            | some v =>
              cases v with
              | dict mm => exact pyLookup_pyInsert_other _ _ _ _ hk
              | str s => rfl
              | int n => rfl
              | float q => rfl
              | bool b => rfl
              | none => rfl
              | list xs => rfl
          | str s => rfl
          | int n => rfl
          | float q => rfl
          | bool b => rfl
          | none => rfl
          | list xs => rfl
        · simp only [hc, ite_false, Bool.false_eq_true, not_false_iff]
          rw [pyLookup_append]
          cases hr : pyLookup r k with
          | some v => rfl
          | none => simp [pyLookup, hk]
      rw [hstep]

theorem defaults_keys_nodup : (defaults.map Prod.fst).Nodup := by decide

/-- Every dict-valued default has distinct sub-keys. -/
def subNodupOK : PyVal → Bool
  | .dict dd => decide ((dd.map Prod.fst).Nodup)
  | _ => true

theorem defaults_sub_nodup : ∀ p ∈ defaults, subNodupOK p.2 = true := by decide

/-- Top-level view of the merge (lines 160-167). -/
theorem mergeTop_lookup (r : PyDict) (k : String) :
    pyLookup (mergeTop r) k = mergeSpec (pyLookup r k) (pyLookup defaults k) :=
  foldl_mergeStep_lookup defaults r k defaults_keys_nodup

/-! ### Inversion lemmas for the zone and truncation stages -/

theorem fixZone_eq_none (r : PyDict)
    (h : pyLookup r "overall_assessment" = Option.none) :
    fixZone r = .error "KeyError: 'overall_assessment'" := by
  unfold fixZone; rw [h]; rfl

theorem fixZone_eq_dict (r : PyDict) (oa : PyDict)
    (h : pyLookup r "overall_assessment" = some (.dict oa)) :
    fixZone r =
      match zoneOf ((pyLookup oa "distress_score").getD (.int 50)) with
      | .error e => .error e
      | .ok zz =>
        .ok (pyInsert "overall_assessment"
              (.dict (pyInsert "zone_label" (.str zz.2)
                (pyInsert "zone" (.str zz.1) oa))) r) := by
  unfold fixZone; rw [h]

theorem fixZone_ok_inversion (r y : PyDict) (h : fixZone r = .ok y) :
    ∃ oa zz, pyLookup r "overall_assessment" = some (.dict oa) ∧
      zoneOf ((pyLookup oa "distress_score").getD (.int 50)) = .ok zz ∧
      y = pyInsert "overall_assessment"
            (.dict (pyInsert "zone_label" (.str zz.2)
              (pyInsert "zone" (.str zz.1) oa))) r := by
  cases hoa : pyLookup r "overall_assessment" with
  | none => rw [fixZone_eq_none r hoa] at h; simp at h
  | some v =>
    cases v with
    | dict oa =>
      rw [fixZone_eq_dict r oa hoa] at h
      cases hz : zoneOf ((pyLookup oa "distress_score").getD (.int 50)) with
      | error e => rw [hz] at h; simp at h
      | ok zz =>
        rw [hz] at h
        simp only [Except.ok.injEq] at h
        exact ⟨oa, zz, rfl, hz, h.symm⟩
    | str s => unfold fixZone at h; rw [hoa] at h; simp at h
    | int n => unfold fixZone at h; rw [hoa] at h; simp at h
    | float q => unfold fixZone at h; rw [hoa] at h; simp at h
    | bool b => unfold fixZone at h; rw [hoa] at h; simp at h
    | none => unfold fixZone at h; rw [hoa] at h; simp at h
    | list xs => unfold fixZone at h; rw [hoa] at h; simp at h

theorem truncStage_eq_none (r : PyDict)
    (h : pyLookup r "interpret_lines" = Option.none) : truncStage r = .ok r := by
  unfold truncStage; rw [h]

theorem truncStage_eq_some (r : PyDict) (v : PyVal)
    (h : pyLookup r "interpret_lines" = some v) :
    truncStage r =
      match iterTruncate v with
      | .error e => .error e
      | .ok v' => .ok (pyInsert "interpret_lines" v' r) := by
  unfold truncStage; rw [h]

theorem truncStage_ok_lookup (r y : PyDict) (k : String)
    (hk : k ≠ "interpret_lines") (h : truncStage r = .ok y) :
    pyLookup y k = pyLookup r k := by
  cases hil : pyLookup r "interpret_lines" with
  | none =>
    rw [truncStage_eq_none r hil] at h
    simp only [Except.ok.injEq] at h
    rw [← h]
  | some v =>
    rw [truncStage_eq_some r v hil] at h
    cases hit : iterTruncate v with
    | error e => rw [hit] at h; simp at h
    | ok v' =>
      rw [hit] at h
      simp only [Except.ok.injEq] at h
      rw [← h, pyLookup_pyInsert_other _ _ _ _ hk]

/-- Split `validate_and_enrich_response r = .ok y` into its two stages. -/
theorem validate_ok_inversion (r y : PyDict)
    (h : validate_and_enrich_response r = .ok y) :
    ∃ m2, fixZone (mergeTop r) = .ok m2 ∧ truncStage m2 = .ok y := by
  unfold validate_and_enrich_response at h
  cases hfz : fixZone (mergeTop r) with
  | error e => rw [hfz] at h; simp at h
  | ok m2 => rw [hfz] at h; exact ⟨m2, rfl, h⟩

/-! ### Claim C1: zone and zone_label are recomputed from the score alone -/

/-- C1: in every successful normalization, the returned mapping's
`overall_assessment` carries `zone`/`zone_label` determined by
`distress_score` alone via the thresholds — score ≤ 33 gives green/LOW,
34-66 gives yellow/MODERATE, ≥ 67 gives red/ELEVATED — overriding whatever
zone/zone_label the input carried. -/
theorem zone_recomputed (r y oaY : PyDict) (n : Int)
    (hv : validate_and_enrich_response r = .ok y)
    (hoa : pyLookup y "overall_assessment" = some (.dict oaY))
    (hds : pyLookup oaY "distress_score" = some (.int n)) :
    pyLookup oaY "zone"
      = some (.str (if n ≤ 33 then "green" else if n ≤ 66 then "yellow" else "red")) ∧
    pyLookup oaY "zone_label"
      = some (.str (if n ≤ 33 then "LOW" else if n ≤ 66 then "MODERATE" else "ELEVATED")) := by
  obtain ⟨m2, hfz, htr⟩ := validate_ok_inversion r y hv
  obtain ⟨oa, zz, hoam, hz, hm2⟩ := fixZone_ok_inversion (mergeTop r) m2 hfz
  have hy : pyLookup y "overall_assessment" = pyLookup m2 "overall_assessment" :=
    truncStage_ok_lookup m2 y _ (by decide) htr
  rw [hm2, pyLookup_pyInsert_same] at hy
  rw [hy] at hoa
  simp only [Option.some.injEq, PyVal.dict.injEq] at hoa
  subst hoa
  rw [pyLookup_pyInsert_other _ _ _ _ (by decide),
      pyLookup_pyInsert_other _ _ _ _ (by decide)] at hds
  have hd : (pyLookup oa "distress_score").getD (.int 50) = .int n := by rw [hds]; rfl
  rw [hd] at hz
  have hzz : zz = (if n ≤ 33 then (("green" : String), ("LOW" : String))
      else if n ≤ 66 then ("yellow", "MODERATE") else ("red", "ELEVATED")) := by
    unfold zoneOf pyLeInt at hz
    by_cases h1 : n ≤ 33
    · simp [h1] at hz
      simp [h1, hz]
    · by_cases h2 : n ≤ 66
      · simp [h1, h2] at hz
        simp [h1, h2, hz]
      · simp [h1, h2] at hz
        simp [h1, h2, hz]
  constructor
  · rw [pyLookup_pyInsert_other _ _ _ _ (by decide), pyLookup_pyInsert_same, hzz]
    by_cases h1 : n ≤ 33
    · simp [h1]
    · by_cases h2 : n ≤ 66 <;> simp [h1, h2]
  · rw [pyLookup_pyInsert_same, hzz]
    by_cases h1 : n ≤ 33
    · simp [h1]
    · by_cases h2 : n ≤ 66 <;> simp [h1, h2]

def c1Input : PyDict :=
  [("overall_assessment", .dict
     [("distress_score", .int 10), ("zone", .str "red"), ("zone_label", .str "ELEVATED")])]

def c1OutputOA : PyDict :=
  [("distress_score", .int 10), ("zone", .str "green"), ("zone_label", .str "LOW"),
   ("confidence", .str "medium"), ("primary_state", .str "alert"),
   ("summary", .str "Analysis in progress")]

def c1Output : PyDict :=
  [("overall_assessment", .dict c1OutputOA),
   ("pet_detected", .bool true),
   ("species", .str "unknown"),
   ("breed_detected", .str "unknown"),
   ("morphology_type", .str "standard"),
   ("morphology_adjustments_applied", .list []),
   ("video_type", .str "single_shot"),
   ("video_context", .str "Pet video analysis"),
   ("visual_analysis", .dict
     [("facs_codes_detected", .list []), ("key_observations", .list []),
      ("body_posture", .str "Not assessed"), ("confidence", .str "medium")]),
   ("audio_analysis", .dict
     [("vocalizations_detected", .list []), ("solicitation_purr_detected", .bool false)]),
   ("timeline", .list []),
   ("interpret_lines", .list []),
   ("advisory", .dict
     [("headline", .str "Continue monitoring"), ("detailed_recommendations", .list []),
      ("urgency", .str "routine")])]

/-- C1 witness: the contradictory input — score 10 with zone "red" — comes
out with zone "green"/"LOW". -/
theorem zone_recomputed_witness :
    pyLookup c1OutputOA "zone" = some (.str "green") ∧
    pyLookup c1OutputOA "zone_label" = some (.str "LOW") := by
  have h := zone_recomputed c1Input c1Output c1OutputOA 10 rfl rfl rfl
  simpa using h

/-! ### Claim C3: the defaults merge -/

/-- C3: (1) every canonical top-level key absent from the input appears in
the output with its documented default verbatim; (2) every top-level key
with a dict default that is present as a dict gets exactly the missing
sub-keys appended (present sub-keys keep their input values, and the
sub-values themselves are inserted verbatim — the backfill goes no deeper);
(3) end-to-end, an input missing `overall_assessment` entirely yields a
normalized result whose `overall_assessment` is the fully populated default
with score 50, confidence "medium" and zone "yellow"/"MODERATE". -/
theorem defaults_merge_backfill (r : PyDict) :
    (∀ k d, pyLookup defaults k = some d → pyLookup r k = Option.none →
        pyLookup (mergeTop r) k = some d) ∧
    (∀ k dd mm, pyLookup defaults k = some (.dict dd) →
        pyLookup r k = some (.dict mm) →
        pyLookup (mergeTop r) k
          = some (.dict (mm ++ dd.filter (fun p => !(pyContains mm p.1))))) ∧
    (∀ y, pyLookup r "overall_assessment" = Option.none →
        validate_and_enrich_response r = .ok y →
        pyLookup y "overall_assessment" = some (.dict
          [("distress_score", .int 50), ("zone", .str "yellow"),
           ("zone_label", .str "MODERATE"), ("confidence", .str "medium"),
           ("primary_state", .str "alert"), ("summary", .str "Analysis in progress")])) := by
  refine ⟨?_, ?_, ?_⟩
  · intro k d hd hr
    rw [mergeTop_lookup, hr, hd]
    cases d <;> rfl
  · intro k dd mm hd hr
    rw [mergeTop_lookup, hr, hd]
    have hnd : (dd.map Prod.fst).Nodup := by
      have hmem := pyLookup_mem defaults k _ hd
      simpa [subNodupOK] using defaults_sub_nodup _ hmem
    simp [mergeSpec, mergeSub_filter dd mm hnd]
  · intro y hnone hv
    obtain ⟨m2, hfz, htr⟩ := validate_ok_inversion r y hv
    have hm : pyLookup (mergeTop r) "overall_assessment"
        = some (.dict
            [("distress_score", .int 50), ("zone", .str "yellow"),
             ("zone_label", .str "MODERATE"), ("confidence", .str "medium"),
             ("primary_state", .str "alert"), ("summary", .str "Analysis in progress")]) := by
      rw [mergeTop_lookup, hnone]
      rfl
    rw [fixZone_eq_dict _ _ hm] at hfz
    have hfz' : (Except.ok (pyInsert "overall_assessment"
        (.dict [("distress_score", .int 50), ("zone", .str "yellow"),
                ("zone_label", .str "MODERATE"), ("confidence", .str "medium"),
                ("primary_state", .str "alert"), ("summary", .str "Analysis in progress")])
        (mergeTop r)) : Except String PyDict) = .ok m2 := hfz
    simp only [Except.ok.injEq] at hfz'
    have hy := truncStage_ok_lookup m2 y "overall_assessment" (by decide) htr
    rw [hy, ← hfz', pyLookup_pyInsert_same]

def c3Input : PyDict := [("species", .str "cat")]

def c3Output : PyDict :=
  [("species", .str "cat"),
   ("pet_detected", .bool true),
   ("breed_detected", .str "unknown"),
   ("morphology_type", .str "standard"),
   ("morphology_adjustments_applied", .list []),
   ("video_type", .str "single_shot"),
   ("video_context", .str "Pet video analysis"),
   ("overall_assessment", .dict
     [("distress_score", .int 50), ("zone", .str "yellow"),
      ("zone_label", .str "MODERATE"), ("confidence", .str "medium"),
      ("primary_state", .str "alert"), ("summary", .str "Analysis in progress")]),
   ("visual_analysis", .dict
     [("facs_codes_detected", .list []), ("key_observations", .list []),
      ("body_posture", .str "Not assessed"), ("confidence", .str "medium")]),
   ("audio_analysis", .dict
     [("vocalizations_detected", .list []), ("solicitation_purr_detected", .bool false)]),
   ("timeline", .list []),
   ("interpret_lines", .list []),
   ("advisory", .dict
     [("headline", .str "Continue monitoring"), ("detailed_recommendations", .list []),
      ("urgency", .str "routine")])]

/-- C3 witness: a missing key gets its default; a present `visual_analysis`
sub-dict gets exactly the missing sub-keys appended after its own; an input
without `overall_assessment` normalizes to the fully populated default. -/
theorem defaults_merge_backfill_witness :
    pyLookup (mergeTop c3Input) "timeline" = some (.list []) ∧
    pyLookup (mergeTop [("visual_analysis", PyVal.dict [("body_posture", .str "crouched")])])
        "visual_analysis"
      = some (.dict [("body_posture", .str "crouched"), ("facs_codes_detected", .list []),
                     ("key_observations", .list []), ("confidence", .str "medium")]) ∧
    validate_and_enrich_response c3Input = .ok c3Output ∧
    pyLookup c3Output "overall_assessment" = some (.dict
      [("distress_score", .int 50), ("zone", .str "yellow"),
       ("zone_label", .str "MODERATE"), ("confidence", .str "medium"),
       ("primary_state", .str "alert"), ("summary", .str "Analysis in progress")]) :=
  ⟨(defaults_merge_backfill c3Input).1 "timeline" _ rfl rfl,
   (defaults_merge_backfill [("visual_analysis", PyVal.dict [("body_posture", .str "crouched")])]).2.1
     "visual_analysis" _ _ rfl rfl,
   rfl,
   (defaults_merge_backfill c3Input).2.2 c3Output rfl rfl⟩

/-! ### Claim C5: 6-word truncation of interpretation lines -/

/-- C5: an interpretation-line entry whose first-person text field has more
than 6 whitespace-delimited words is replaced by exactly the first 6 words
joined by single spaces, nothing appended; an entry with 6 or fewer words
passes through unchanged. -/
theorem interpret_line_truncation (m : PyDict) (s : String)
    (h : pyLookup m fpiKey = some (.str s)) :
    (6 < (pySplit s.data).length →
      truncLine (.dict m)
        = .ok (.dict (pyInsert fpiKey
            (.str (String.mk (joinSpace ((pySplit s.data).take 6)))) m))) ∧
    ((pySplit s.data).length ≤ 6 → truncLine (.dict m) = .ok (.dict m)) := by
  constructor
  · intro hlen
    simp only [truncLine]
    rw [h]
    simp [hlen]
  · intro hlen
    simp only [truncLine]
    rw [h]
    simp [Nat.not_lt.mpr hlen]

/-- C5 witness: a 7-word line keeps exactly its first 6 words; a 3-word line
is untouched. -/
theorem interpret_line_truncation_witness :
    truncLine (.dict [(fpiKey, .str "one two three four five six seven")])
      = .ok (.dict [(fpiKey, .str "one two three four five six")]) ∧
    truncLine (.dict [(fpiKey, .str "calm and relaxed")])
      = .ok (.dict [(fpiKey, .str "calm and relaxed")]) :=
  ⟨(interpret_line_truncation [(fpiKey, .str "one two three four five six seven")]
      "one two three four five six seven" rfl).1 (by decide),
   (interpret_line_truncation [(fpiKey, .str "calm and relaxed")]
      "calm and relaxed" rfl).2 (by decide)⟩

/-! ### Claim C9: the normalizer's typing precondition

The claim as stated is false in its first half: `visual_analysis` is a
canonical key whose default is a mapping, yet binding it to a non-mapping
does not raise — the merge simply skips it and no later stage reads it.
(Its second half also understates the precondition: a malformed
`interpret_lines` raises even when `overall_assessment` and `distress_score`
are well-typed.)  The amended claim localizes the raising keys to
`overall_assessment` / `distress_score` and adds the `interpret_lines`
iteration condition to the precondition. -/

/-- C9 counterexample: `visual_analysis` — a canonical key whose default is
a mapping — bound to the non-mapping `5` does not make the normalizer raise:
it returns a result. -/
theorem normalizer_typing_counterexample :
    (validate_and_enrich_response [("visual_analysis", PyVal.int 5)]).isOk = true := rfl

/-- Python values comparable with an `int` literal. -/
def numericPy : PyVal → Bool
  | .int _ => true
  | .bool _ => true
  | .float _ => true
  | _ => false

/-- One `interpret_lines` entry that the truncation loop accepts: a dict
whose text field, when present, is a string; a list not containing the field
name; a string not containing it as a substring. -/
def lineOK : PyVal → Bool
  | .dict m =>
    match pyLookup m fpiKey with
    | Option.none => true
    | some (.str _) => true
    | some _ => false
  | .list xs => !(xs.any (fun x => match x with | .str s => s = fpiKey | _ => false))
  | .str s => !(containsSeq fpiKey.data s.data)
  | _ => false

/-- An `interpret_lines` value that the truncation loop accepts. -/
def iterOK : PyVal → Bool
  | .list xs => xs.all lineOK
  | .dict m => m.all (fun kv => !(containsSeq fpiKey.data kv.1.data))
  | .str _ => true
  | _ => false

def oaOK (r : PyDict) : Bool :=
  match pyLookup r "overall_assessment" with
  | Option.none => true
  | some (.dict m) => numericPy ((pyLookup m "distress_score").getD (.int 50))
  | some _ => false

def ilOK (r : PyDict) : Bool :=
  match pyLookup r "interpret_lines" with
  | Option.none => true
  | some v => iterOK v

theorem zoneOf_numeric_ok (d : PyVal) (h : numericPy d = true) :
    ∃ zz, zoneOf d = .ok zz := by
  cases d with
  | int n =>
    unfold zoneOf pyLeInt
    by_cases h1 : n ≤ 33
    · simp [h1]
    · by_cases h2 : n ≤ 66 <;> simp [h1, h2]
  | bool b => cases b <;> exact ⟨_, rfl⟩
  | float q =>
    unfold zoneOf pyLeInt
    by_cases h1 : q ≤ (33 : Rat)
    · simp [h1]
    · by_cases h2 : q ≤ (66 : Rat) <;> simp [h1, h2]
  | str s => simp [numericPy] at h
  | none => simp [numericPy] at h
  | list xs => simp [numericPy] at h
  | dict m => simp [numericPy] at h

theorem truncLine_ok (x : PyVal) (h : lineOK x = true) :
    ∃ x', truncLine x = .ok x' := by
  cases x with
  | dict m =>
    cases hl : pyLookup m fpiKey with
    | none => exact ⟨.dict m, by simp only [truncLine]; rw [hl]⟩
    | some v =>
      cases v with
      | str s =>
        by_cases hlen : 6 < (pySplit s.data).length
        · exact ⟨.dict (pyInsert fpiKey
              (.str (String.mk (joinSpace ((pySplit s.data).take 6)))) m),
            by simp only [truncLine]; rw [hl]; simp [hlen]⟩
        · exact ⟨.dict m, by simp only [truncLine]; rw [hl]; simp [hlen]⟩
      | int n => simp only [lineOK] at h; rw [hl] at h; simp at h
      | float q => simp only [lineOK] at h; rw [hl] at h; simp at h
      | bool b => simp only [lineOK] at h; rw [hl] at h; simp at h
      | none => simp only [lineOK] at h; rw [hl] at h; simp at h
      | list xs => simp only [lineOK] at h; rw [hl] at h; simp at h
      | dict m2 => simp only [lineOK] at h; rw [hl] at h; simp at h
  | list xs =>
    simp only [lineOK, Bool.not_eq_true'] at h
    exact ⟨.list xs, by simp only [truncLine]; simp [h]⟩
  | str s =>
    simp only [lineOK, Bool.not_eq_true'] at h
    exact ⟨.str s, by simp only [truncLine]; simp [h]⟩
  | int n => simp [lineOK] at h
  | float q => simp [lineOK] at h
  | bool b => simp [lineOK] at h
  | none => simp [lineOK] at h

theorem mapLines_ok (xs : List PyVal) (h : xs.all lineOK = true) :
    ∃ xs', mapLines xs = .ok xs' := by
  induction xs with
  | nil => exact ⟨[], rfl⟩
  | cons x xs ih =>
    simp only [List.all_cons, Bool.and_eq_true] at h
    obtain ⟨x', hx⟩ := truncLine_ok x h.1
    obtain ⟨xs', hxs⟩ := ih h.2
    exact ⟨x' :: xs', by simp only [mapLines]; rw [hx, hxs]⟩

theorem iterTruncate_ok (v : PyVal) (h : iterOK v = true) :
    ∃ v', iterTruncate v = .ok v' := by
  cases v with
  | list xs =>
    obtain ⟨xs', hxs⟩ := mapLines_ok xs (by simpa [iterOK] using h)
    exact ⟨.list xs', by simp only [iterTruncate]; rw [hxs]⟩
  | dict m =>
    simp only [iterOK, List.all_eq_true, Bool.not_eq_true'] at h
    have hany : (m.any fun kv => containsSeq fpiKey.data kv.1.data) = false := by
      simp only [List.any_eq_false]
      intro kv hkv
      simp [h kv hkv]
    exact ⟨.dict m, by simp only [iterTruncate]; simp [hany]⟩
  | str s => exact ⟨.str s, rfl⟩
  | int n => simp [iterOK] at h
  | float q => simp [iterOK] at h
  | bool b => simp [iterOK] at h
  | none => simp [iterOK] at h

/-- The default `overall_assessment` sub-document. -/
def oaDefault : PyDict :=
  [("distress_score", .int 50), ("zone", .str "yellow"),
   ("zone_label", .str "MODERATE"), ("confidence", .str "medium"),
   ("primary_state", .str "alert"), ("summary", .str "Analysis in progress")]

theorem defaults_oa : pyLookup defaults "overall_assessment" = some (.dict oaDefault) := rfl

theorem zoneOf_nonnumeric_error (d : PyVal) (h : numericPy d = false) :
    zoneOf d = .error ("TypeError: '<=' not supported between instances of '"
      ++ typeName d ++ "' and 'int'") := by
  cases d <;> first | rfl | simp [numericPy] at h

theorem oaOK_some_dict (r : PyDict) (m : PyDict)
    (hv : pyLookup r "overall_assessment" = some (.dict m)) :
    oaOK r = numericPy ((pyLookup m "distress_score").getD (.int 50)) := by
  unfold oaOK; rw [hv]

theorem mergeSpec_some_list (w : PyVal) (dv : PyVal) (xs : List PyVal) (hdv : dv = .list xs) :
    mergeSpec (some w) (some dv) = some w := by
  subst hdv
  cases w <;> rfl

/-- C9 amended: the normalizer errors when `overall_assessment` is bound to
a non-mapping, or when a mapping `overall_assessment` binds `distress_score`
to a value not comparable with integers; and it returns a result whenever
`overall_assessment`, when present, is a mapping whose `distress_score`
(defaulted to 50) is numeric, and `interpret_lines`, when present, is a
value its truncation loop accepts (`iterOK`). -/
theorem normalizer_typing (r : PyDict) :
    (∀ v, pyLookup r "overall_assessment" = some v → (∀ m, v ≠ .dict m) →
        (validate_and_enrich_response r).isOk = false) ∧
    (∀ m d, pyLookup r "overall_assessment" = some (.dict m) →
        pyLookup m "distress_score" = some d → numericPy d = false →
        (validate_and_enrich_response r).isOk = false) ∧
    (oaOK r = true → ilOK r = true →
        (validate_and_enrich_response r).isOk = true) := by
  refine ⟨?_, ?_, ?_⟩
  · intro v hv hnd
    have hm : pyLookup (mergeTop r) "overall_assessment" = some v := by
      rw [mergeTop_lookup, hv, defaults_oa]
      cases v with
      | dict mm => exact absurd rfl (hnd mm)
      | str s => rfl
      | int n => rfl
      | float q => rfl
      | bool b => rfl
      | none => rfl
      | list xs => rfl
    have hfz : fixZone (mergeTop r)
        = .error ("AttributeError: '" ++ typeName v ++ "' object has no attribute 'get'") := by
      unfold fixZone
      rw [hm]
      cases v with
      | dict mm => exact absurd rfl (hnd mm)
      | str s => rfl
      | int n => rfl
      | float q => rfl
      | bool b => rfl
      | none => rfl
      | list xs => rfl
    unfold validate_and_enrich_response
    rw [hfz]
    rfl
  · intro m d hvm hd hnum
    have hm : pyLookup (mergeTop r) "overall_assessment"
        = some (.dict (mergeSub m oaDefault)) := by
      rw [mergeTop_lookup, hvm, defaults_oa]
      rfl
    have hds : (pyLookup (mergeSub m oaDefault) "distress_score").getD (.int 50) = d := by
      rw [mergeSub_lookup, hd]
      rfl
    have hfz : fixZone (mergeTop r)
        = .error ("TypeError: '<=' not supported between instances of '"
            ++ typeName d ++ "' and 'int'") := by
      rw [fixZone_eq_dict _ _ hm, hds, zoneOf_nonnumeric_error d hnum]
    unfold validate_and_enrich_response
    rw [hfz]
    rfl
  · intro hoa hil
    obtain ⟨oaM, hoaM, hnum⟩ : ∃ oaM,
        pyLookup (mergeTop r) "overall_assessment" = some (.dict oaM) ∧
        numericPy ((pyLookup oaM "distress_score").getD (.int 50)) = true := by
      cases hv : pyLookup r "overall_assessment" with
      | none =>
        refine ⟨oaDefault, ?_, rfl⟩
        rw [mergeTop_lookup, hv, defaults_oa]
        rfl
      | some v =>
        cases v with
        | dict m =>
          rw [oaOK_some_dict r m hv] at hoa
          refine ⟨mergeSub m oaDefault, ?_, ?_⟩
          · rw [mergeTop_lookup, hv, defaults_oa]
            rfl
          · rw [mergeSub_lookup]
            cases hd : pyLookup m "distress_score" with
            | none => rfl
            | some d =>
              rw [hd] at hoa
              exact hoa
        | str s => unfold oaOK at hoa; rw [hv] at hoa; simp at hoa
        | int n => unfold oaOK at hoa; rw [hv] at hoa; simp at hoa
        | float q => unfold oaOK at hoa; rw [hv] at hoa; simp at hoa
        | bool b => unfold oaOK at hoa; rw [hv] at hoa; simp at hoa
        | none => unfold oaOK at hoa; rw [hv] at hoa; simp at hoa
        | list xs => unfold oaOK at hoa; rw [hv] at hoa; simp at hoa
    obtain ⟨zz, hzz⟩ := zoneOf_numeric_ok _ hnum
    have hfz : fixZone (mergeTop r)
        = .ok (pyInsert "overall_assessment"
            (.dict (pyInsert "zone_label" (.str zz.2)
              (pyInsert "zone" (.str zz.1) oaM))) (mergeTop r)) := by
      rw [fixZone_eq_dict _ _ hoaM, hzz]
    obtain ⟨w, hw, hwOK⟩ : ∃ w,
        pyLookup (mergeTop r) "interpret_lines" = some w ∧ iterOK w = true := by
      cases hvil : pyLookup r "interpret_lines" with
      | none =>
        refine ⟨.list [], ?_, rfl⟩
        rw [mergeTop_lookup, hvil]
        rfl
      | some w =>
        refine ⟨w, ?_, ?_⟩
        · rw [mergeTop_lookup, hvil]
          have hdil : pyLookup defaults "interpret_lines" = some (.list []) := rfl
          rw [hdil, mergeSpec_some_list w _ [] rfl]
        · unfold ilOK at hil
          rw [hvil] at hil
          exact hil
    obtain ⟨v', hv'⟩ := iterTruncate_ok w hwOK
    have hm2 : pyLookup (pyInsert "overall_assessment"
        (.dict (pyInsert "zone_label" (.str zz.2)
          (pyInsert "zone" (.str zz.1) oaM))) (mergeTop r)) "interpret_lines"
        = some w := by
      rw [pyLookup_pyInsert_other _ _ _ _ (by decide), hw]
    unfold validate_and_enrich_response
    rw [hfz]
    show (truncStage (pyInsert "overall_assessment"
        (.dict (pyInsert "zone_label" (.str zz.2)
          (pyInsert "zone" (.str zz.1) oaM))) (mergeTop r))).isOk = true
    rw [truncStage_eq_some _ _ hm2, hv']
    rfl

/-- C9 amended witness: `overall_assessment: 3` errors; a string
`distress_score` errors; a well-typed input (present `overall_assessment`
mapping with numeric score, list `interpret_lines` of dict entries)
succeeds. -/
theorem normalizer_typing_witness :
    (validate_and_enrich_response [("overall_assessment", PyVal.int 3)]).isOk = false ∧
    (validate_and_enrich_response
        [("overall_assessment", PyVal.dict [("distress_score", .str "high")])]).isOk = false ∧
    (validate_and_enrich_response
        [("overall_assessment", PyVal.dict [("distress_score", .int 80)]),
         ("interpret_lines", PyVal.list
           [.dict [("first_person_interpretation", .str "I am very very very worried now")]])]).isOk
      = true :=
  ⟨(normalizer_typing [("overall_assessment", PyVal.int 3)]).1 (.int 3) rfl
      (fun m h => PyVal.noConfusion h),
   (normalizer_typing [("overall_assessment", PyVal.dict [("distress_score", .str "high")])]).2.1
      [("distress_score", .str "high")] (.str "high") rfl rfl rfl,
   (normalizer_typing _).2.2 rfl rfl⟩

/-! ### Idempotence of the truncation loop

Key fact: splitting the space-join of at most 6 split-words gives those
words back, so a truncated line is left alone by a second pass. -/

theorem pySplitGo_words (l : List Char) :
    ∀ acc, (∀ c ∈ acc, isPySpace c = false) →
      ∀ w ∈ pySplitGo l acc, w ≠ [] ∧ ∀ c ∈ w, isPySpace c = false := by
  induction l with
  | nil =>
    intro acc hacc w hw
    simp only [pySplitGo] at hw
    by_cases ha : acc.isEmpty
    · rw [if_pos ha] at hw
      simp at hw
    · rw [if_neg ha] at hw
      simp only [List.mem_singleton] at hw
      subst hw
      constructor
      · simp only [ne_eq, List.reverse_eq_nil_iff]
        intro he
        rw [he] at ha
        simp at ha
      · intro c hc
        exact hacc c (List.mem_reverse.mp hc)
  | cons c cs ih =>
    intro acc hacc w hw
    simp only [pySplitGo] at hw
    by_cases hsp : isPySpace c
    · rw [if_pos hsp] at hw
      by_cases ha : acc.isEmpty
      · rw [if_pos ha] at hw
        exact ih [] (by simp) w hw
      · rw [if_neg ha] at hw
        rcases List.mem_cons.mp hw with hw1 | hw2
        · subst hw1
          constructor
          · simp only [ne_eq, List.reverse_eq_nil_iff]
            intro he
            rw [he] at ha
            simp at ha
          · intro c' hc'
            exact hacc c' (List.mem_reverse.mp hc')
        · exact ih [] (by simp) w hw2
    · rw [if_neg hsp] at hw
      refine ih (c :: acc) ?_ w hw
      intro c' hc'
      rcases List.mem_cons.mp hc' with h1 | h2
      · subst h1
        exact Bool.not_eq_true _ ▸ (by simpa using hsp)
      · exact hacc c' h2

theorem pySplitGo_append_word (w : List Char)
    (hw : ∀ c ∈ w, isPySpace c = false) :
    ∀ cs acc, pySplitGo (w ++ cs) acc = pySplitGo cs (w.reverse ++ acc) := by
  induction w with
  | nil => intro cs acc; simp
  | cons c w ih =>
    intro cs acc
    have hc : isPySpace c = false := hw c (by simp)
    simp only [List.cons_append, pySplitGo, hc, Bool.false_eq_true, if_false,
               List.append_eq]
    rw [ih (fun c' hc' => hw c' (by simp [hc'])) cs (c :: acc)]
    simp

theorem pySplit_joinSpace (ws : List (List Char))
    (h : ∀ w ∈ ws, w ≠ [] ∧ ∀ c ∈ w, isPySpace c = false) :
    pySplit (joinSpace ws) = ws := by
  induction ws with
  | nil => rfl
  | cons w ws ih =>
    obtain ⟨hne, hsp⟩ := h w (by simp)
    cases ws with
    | nil =>
      show pySplitGo (joinSpace [w]) [] = [w]
      have hj : joinSpace [w] = w := rfl
      rw [hj, ← List.append_nil w, pySplitGo_append_word w hsp [] []]
      simp only [pySplitGo, List.append_nil]
      rw [if_neg (by simpa using hne)]
      simp
    | cons w2 ws2 =>
      show pySplitGo (w ++ ' ' :: joinSpace (w2 :: ws2)) [] = w :: w2 :: ws2
      rw [pySplitGo_append_word w hsp]
      have hsp' : isPySpace ' ' = true := rfl
      simp only [pySplitGo, hsp', if_true, List.append_nil]
      rw [if_neg (by simpa using hne)]
      simp only [List.reverse_reverse]
      have ih' := ih (fun w' hw' => h w' (by simp [hw']))
      unfold pySplit at ih'
      rw [ih']

theorem pySplit_words (l : List Char) :
    ∀ w ∈ pySplit l, w ≠ [] ∧ ∀ c ∈ w, isPySpace c = false :=
  pySplitGo_words l [] (by simp)

/-- Splitting a truncated line gives back exactly the kept words. -/
theorem pySplit_take_roundtrip (l : List Char) (n : Nat) :
    pySplit (joinSpace ((pySplit l).take n)) = (pySplit l).take n := by
  apply pySplit_joinSpace
  intro w hw
  exact pySplit_words l w (List.take_subset n _ hw)

theorem truncLine_dict_none (m : PyDict) (hl : pyLookup m fpiKey = Option.none) :
    truncLine (.dict m) = .ok (.dict m) := by
  simp only [truncLine]; rw [hl]

theorem truncLine_dict_str (m : PyDict) (s : String)
    (hl : pyLookup m fpiKey = some (.str s)) :
    truncLine (.dict m) =
      if 6 < (pySplit s.data).length then
        .ok (.dict (pyInsert fpiKey
          (.str (String.mk (joinSpace ((pySplit s.data).take 6)))) m))
      else .ok (.dict m) := by
  simp only [truncLine]; rw [hl]

theorem truncLine_idem (x x' : PyVal) (h : truncLine x = .ok x') :
    truncLine x' = .ok x' := by
  cases x with
  | dict m =>
    cases hl : pyLookup m fpiKey with
    | none =>
      rw [truncLine_dict_none m hl] at h
      simp only [Except.ok.injEq] at h
      subst h
      exact truncLine_dict_none m hl
    | some v =>
      cases v with
      | str s =>
        rw [truncLine_dict_str m s hl] at h
        by_cases hlen : 6 < (pySplit s.data).length
        · rw [if_pos hlen] at h
          simp only [Except.ok.injEq] at h
          subst h
          have hl' : pyLookup (pyInsert fpiKey
              (.str (String.mk (joinSpace ((pySplit s.data).take 6)))) m) fpiKey
              = some (.str (String.mk (joinSpace ((pySplit s.data).take 6)))) :=
            pyLookup_pyInsert_same _ _ _
          rw [truncLine_dict_str _ _ hl']
          have hsplit : pySplit (String.mk (joinSpace ((pySplit s.data).take 6))).data
              = (pySplit s.data).take 6 := pySplit_take_roundtrip s.data 6
          rw [if_neg (by rw [hsplit]; simp [List.length_take])]
        · rw [if_neg hlen] at h
          simp only [Except.ok.injEq] at h
          subst h
          rw [truncLine_dict_str m s hl, if_neg hlen]
      | int n => simp only [truncLine] at h; rw [hl] at h; simp at h
      | float q => simp only [truncLine] at h; rw [hl] at h; simp at h
      | bool b => simp only [truncLine] at h; rw [hl] at h; simp at h
      | none => simp only [truncLine] at h; rw [hl] at h; simp at h
      | list xs => simp only [truncLine] at h; rw [hl] at h; simp at h
      | dict m2 => simp only [truncLine] at h; rw [hl] at h; simp at h
  | list xs =>
    simp only [truncLine] at h ⊢
    by_cases hc : (xs.any fun x => match x with | .str s => decide (s = fpiKey) | _ => false) = true
    · rw [if_pos hc] at h; simp at h
    · rw [if_neg hc] at h
      simp only [Except.ok.injEq] at h
      subst h
      simp only [truncLine]
      rw [if_neg hc]
  | str s =>
    simp only [truncLine] at h ⊢
    by_cases hc : containsSeq fpiKey.data s.data = true
    · rw [if_pos hc] at h; simp at h
    · rw [if_neg hc] at h
      simp only [Except.ok.injEq] at h
      subst h
      simp only [truncLine]
      rw [if_neg hc]
  | int n => simp [truncLine] at h
  | float q => simp [truncLine] at h
  | bool b => simp [truncLine] at h
  | none => simp [truncLine] at h

theorem mapLines_idem (xs xs' : List PyVal) (h : mapLines xs = .ok xs') :
    mapLines xs' = .ok xs' := by
  induction xs generalizing xs' with
  | nil =>
    simp only [mapLines, Except.ok.injEq] at h
    subst h
    rfl
  | cons x xs ih =>
    simp only [mapLines] at h
    cases hx : truncLine x with
    | error e => rw [hx] at h; simp at h
    | ok x1 =>
      rw [hx] at h
      cases hxs : mapLines xs with
      | error e => rw [hxs] at h; simp at h
      | ok rest =>
        rw [hxs] at h
        simp only [Except.ok.injEq] at h
        subst h
        simp only [mapLines]
        rw [truncLine_idem x x1 hx, ih rest hxs]

theorem iterTruncate_idem (w w' : PyVal) (h : iterTruncate w = .ok w') :
    iterTruncate w' = .ok w' := by
  cases w with
  | list xs =>
    simp only [iterTruncate] at h
    cases hxs : mapLines xs with
    | error e => rw [hxs] at h; simp at h
    | ok xs' =>
      rw [hxs] at h
      simp only [Except.ok.injEq] at h
      subst h
      simp only [iterTruncate]
      rw [mapLines_idem xs xs' hxs]
  | dict m =>
    simp only [iterTruncate] at h
    by_cases hc : (m.any fun kv => containsSeq fpiKey.data kv.1.data) = true
    · rw [if_pos hc] at h; simp at h
    · rw [if_neg hc] at h
      simp only [Except.ok.injEq] at h
      subst h
      simp only [iterTruncate]
      rw [if_neg hc]
  | str s =>
    simp only [iterTruncate, Except.ok.injEq] at h
    subst h
    rfl
  | int n => simp [iterTruncate] at h
  | float q => simp [iterTruncate] at h
  | bool b => simp [iterTruncate] at h
  | none => simp [iterTruncate] at h

/-! ### The normalized output is a fixpoint of the defaults merge -/

/-- Saturation: every key of `ds` is present in `acc`, and where both the
default and the held value are dicts, every default sub-key is present. -/
def SatFor (ds acc : PyDict) : Prop :=
  ∀ k d, pyLookup ds k = some d → ∃ v, pyLookup acc k = some v ∧
    (∀ dd, d = .dict dd → ∀ mm, v = .dict mm →
      ∀ sk sv, pyLookup dd sk = some sv → pyContains mm sk = true)

theorem pyContains_pyInsert (m : PyDict) (k k2 : String) (v : PyVal)
    (h : pyContains m k = true) : pyContains (pyInsert k2 v m) k = true := by
  by_cases hk : k = k2
  · subst hk
    simp [pyContains, pyLookup_pyInsert_same]
  · simp only [pyContains] at *
    rw [pyLookup_pyInsert_other _ _ _ _ hk]
    exact h

theorem mergeTop_saturated (r : PyDict) : SatFor defaults (mergeTop r) := by
  intro k d hd
  cases hr : pyLookup r k with
  | none =>
    refine ⟨d, ?_, ?_⟩
    · rw [mergeTop_lookup, hr, hd]
      cases d <;> rfl
    · intro dd hdd mm hmm sk sv hsv
      subst hdd
      have hmm' : dd = mm := by injection hmm
      subst hmm'
      simp [pyContains, hsv]
  | some w =>
    cases w with
    | dict mm =>
      cases d with
      | dict dd =>
        refine ⟨.dict (mergeSub mm dd), ?_, ?_⟩
        · rw [mergeTop_lookup, hr, hd]
          rfl
        · intro dd' hdd' mm' hmm' sk sv hsv
          have h1 : dd' = dd := by injection hdd' with h1x; exact h1x.symm
          have h2 : mergeSub mm dd = mm' := by injection hmm'
          subst h1
          rw [← h2]
          simp only [pyContains, mergeSub_lookup]
          cases hmk : pyLookup mm sk
          · rw [hsv]; rfl
          · rfl
      | str s =>
        exact ⟨.dict mm, by rw [mergeTop_lookup, hr, hd]; rfl,
               fun dd hdd => PyVal.noConfusion hdd⟩
      | int n =>
        exact ⟨.dict mm, by rw [mergeTop_lookup, hr, hd]; rfl,
               fun dd hdd => PyVal.noConfusion hdd⟩
      | float q =>
        exact ⟨.dict mm, by rw [mergeTop_lookup, hr, hd]; rfl,
               fun dd hdd => PyVal.noConfusion hdd⟩
      | bool b =>
        exact ⟨.dict mm, by rw [mergeTop_lookup, hr, hd]; rfl,
               fun dd hdd => PyVal.noConfusion hdd⟩
      | none =>
        exact ⟨.dict mm, by rw [mergeTop_lookup, hr, hd]; rfl,
               fun dd hdd => PyVal.noConfusion hdd⟩
      | list xs =>
        exact ⟨.dict mm, by rw [mergeTop_lookup, hr, hd]; rfl,
               fun dd hdd => PyVal.noConfusion hdd⟩
    | str s =>
      exact ⟨.str s, by rw [mergeTop_lookup, hr, hd]; cases d <;> rfl,
             fun dd hdd mm hmm => PyVal.noConfusion hmm⟩
    | int n =>
      exact ⟨.int n, by rw [mergeTop_lookup, hr, hd]; cases d <;> rfl,
             fun dd hdd mm hmm => PyVal.noConfusion hmm⟩
    | float q =>
      exact ⟨.float q, by rw [mergeTop_lookup, hr, hd]; cases d <;> rfl,
             fun dd hdd mm hmm => PyVal.noConfusion hmm⟩
    | bool b =>
      exact ⟨.bool b, by rw [mergeTop_lookup, hr, hd]; cases d <;> rfl,
             fun dd hdd mm hmm => PyVal.noConfusion hmm⟩
    | none =>
      exact ⟨.none, by rw [mergeTop_lookup, hr, hd]; cases d <;> rfl,
             fun dd hdd mm hmm => PyVal.noConfusion hmm⟩
    | list xs =>
      exact ⟨.list xs, by rw [mergeTop_lookup, hr, hd]; cases d <;> rfl,
             fun dd hdd mm hmm => PyVal.noConfusion hmm⟩

theorem mergeSub_self (dd mm : PyDict)
    (h : ∀ sk sv, pyLookup dd sk = some sv → pyContains mm sk = true) :
    mergeSub mm dd = mm := by
  induction dd generalizing mm with
  | nil => rfl
  | cons p dd ih =>
    obtain ⟨k2, v2⟩ := p
    rw [mergeSub_cons]
    have hc : pyContains mm k2 = true := h k2 v2 (by simp [pyLookup])
    rw [if_pos hc]
    apply ih
    intro sk sv hsv
    by_cases hk : sk = k2
    · subst hk
      exact hc
    · exact h sk sv (by simp [pyLookup, hk, hsv])

theorem foldl_mergeStep_fixed (ds : PyDict) (acc : PyDict)
    (hnd : (ds.map Prod.fst).Nodup) (hsat : SatFor ds acc) :
    ds.foldl mergeStep acc = acc := by
  induction ds with
  | nil => rfl
  | cons p ds ih =>
    obtain ⟨k, d⟩ := p
    simp only [List.map_cons, List.nodup_cons] at hnd
    obtain ⟨hk, hnd'⟩ := hnd
    obtain ⟨v, hv, hcond⟩ := hsat k d (by simp [pyLookup])
    have hstep : mergeStep acc (k, d) = acc := by
      unfold mergeStep
      have hc : pyContains acc k = true := by simp [pyContains, hv]
      rw [if_pos hc]
      cases d with
      | dict dd =>
        rw [hv]
        cases v with
        | dict mm =>
          show pyInsert k (.dict (mergeSub mm dd)) acc = acc
          rw [mergeSub_self dd mm (fun sk sv hsv => hcond dd rfl mm rfl sk sv hsv)]
          exact pyInsert_self acc k (.dict mm) hv
        | str s => rfl
        | int n => rfl
        | float q => rfl
        | bool b => rfl
        | none => rfl
        | list xs => rfl
      | str s => rfl
      | int n => rfl
      | float q => rfl
      | bool b => rfl
      | none => rfl
      | list xs => rfl
    rw [List.foldl_cons, hstep]
    apply ih hnd'
    intro k' d' hd'
    apply hsat k' d'
    have hne : k' ≠ k := by
      intro he
      subst he
      exact hk (List.mem_map_of_mem Prod.fst (pyLookup_mem ds k' d' hd'))
    simp [pyLookup, hne, hd']

theorem validate_output_saturated (r y : PyDict)
    (h : validate_and_enrich_response r = .ok y) : SatFor defaults y := by
  obtain ⟨m2, hfz, htr⟩ := validate_ok_inversion r y h
  obtain ⟨oaM, zz, hoaM, hz, hm2⟩ := fixZone_ok_inversion _ _ hfz
  have hsat1 := mergeTop_saturated r
  have hsat2 : SatFor defaults m2 := by
    intro k d hd
    by_cases hk : k = "overall_assessment"
    · subst hk
      have hdd : d = .dict oaDefault := by
        have h2 := defaults_oa.symm.trans hd
        simp only [Option.some.injEq] at h2
        exact h2.symm
      refine ⟨.dict (pyInsert "zone_label" (.str zz.2)
          (pyInsert "zone" (.str zz.1) oaM)), ?_, ?_⟩
      · rw [hm2, pyLookup_pyInsert_same]
      · intro dd hdd2 mm hmm sk sv hsv
        obtain ⟨v1, hv1, hcond1⟩ := hsat1 "overall_assessment" d hd
        have hv1' : v1 = .dict oaM := by
          have h3 := hv1.symm.trans hoaM
          simp only [Option.some.injEq] at h3
          exact h3
        have hoasat := hcond1 dd hdd2 oaM hv1' sk sv hsv
        have hmm' : pyInsert "zone_label" (.str zz.2)
            (pyInsert "zone" (.str zz.1) oaM) = mm := by
          simp only [PyVal.dict.injEq] at hmm
          exact hmm
        rw [← hmm']
        exact pyContains_pyInsert _ _ _ _ (pyContains_pyInsert _ _ _ _ hoasat)
    · obtain ⟨v, hv, hcond⟩ := hsat1 k d hd
      refine ⟨v, ?_, hcond⟩
      rw [hm2, pyLookup_pyInsert_other _ _ _ _ hk, hv]
  intro k d hd
  by_cases hk : k = "interpret_lines"
  · subst hk
    have hdd : d = .list [] := by
      have hdl : pyLookup defaults "interpret_lines" = some (.list []) := rfl
      have h2 := hdl.symm.trans hd
      simp only [Option.some.injEq] at h2
      exact h2.symm
    cases hil : pyLookup m2 "interpret_lines" with
    | none =>
      obtain ⟨v2, hv2, _⟩ := hsat2 "interpret_lines" d hd
      rw [hil] at hv2
      exact absurd hv2 (by simp)
    | some w =>
      rw [truncStage_eq_some m2 w hil] at htr
      cases hit : iterTruncate w with
      | error e => rw [hit] at htr; simp at htr
      | ok w' =>
        rw [hit] at htr
        have htr' : Except.ok (pyInsert "interpret_lines" w' m2) = Except.ok y := htr
        have hy : pyInsert "interpret_lines" w' m2 = y := by
          simp only [Except.ok.injEq] at htr'
          exact htr'
        refine ⟨w', ?_, ?_⟩
        · rw [← hy, pyLookup_pyInsert_same]
        · intro dd hdd2 mm hmm sk sv hsv
          rw [hdd] at hdd2
          exact PyVal.noConfusion hdd2
  · obtain ⟨v, hv, hcond⟩ := hsat2 k d hd
    refine ⟨v, ?_, hcond⟩
    rw [truncStage_ok_lookup m2 y k hk htr, hv]

/-! ### Claim C4: the normalizer is idempotent -/

/-- C4: applying the normalizer twice yields exactly what applying it once
yields: a successful normalization's output is a fixpoint (defaults are
filled only where absent, the zone recomputation is stable, and truncating
an already-truncated line is a no-op). -/
theorem normalizer_idempotent (r y : PyDict)
    (h : validate_and_enrich_response r = .ok y) :
    validate_and_enrich_response y = .ok y := by
  have hsat : SatFor defaults y := validate_output_saturated r y h
  have hmt : mergeTop y = y := foldl_mergeStep_fixed defaults y defaults_keys_nodup hsat
  obtain ⟨m2, hfz, htr⟩ := validate_ok_inversion r y h
  obtain ⟨oaM, zz, hoaM, hz, hm2⟩ := fixZone_ok_inversion _ _ hfz
  have hyoa : pyLookup y "overall_assessment"
      = some (.dict (pyInsert "zone_label" (.str zz.2)
          (pyInsert "zone" (.str zz.1) oaM))) := by
    rw [truncStage_ok_lookup m2 y _ (by decide) htr, hm2, pyLookup_pyInsert_same]
  have hds' : pyLookup (pyInsert "zone_label" (.str zz.2)
      (pyInsert "zone" (.str zz.1) oaM)) "distress_score"
      = pyLookup oaM "distress_score" := by
    rw [pyLookup_pyInsert_other _ _ _ _ (by decide),
        pyLookup_pyInsert_other _ _ _ _ (by decide)]
  have hfzy : fixZone y = .ok y := by
    rw [fixZone_eq_dict y _ hyoa, hds', hz]
    show Except.ok (pyInsert "overall_assessment"
        (.dict (pyInsert "zone_label" (.str zz.2) (pyInsert "zone" (.str zz.1)
          (pyInsert "zone_label" (.str zz.2) (pyInsert "zone" (.str zz.1) oaM))))) y)
      = .ok y
    have h1 : pyInsert "zone" (.str zz.1)
        (pyInsert "zone_label" (.str zz.2) (pyInsert "zone" (.str zz.1) oaM))
        = pyInsert "zone_label" (.str zz.2) (pyInsert "zone" (.str zz.1) oaM) := by
      apply pyInsert_self
      rw [pyLookup_pyInsert_other _ _ _ _ (by decide), pyLookup_pyInsert_same]
    rw [h1]
    have h2 : pyInsert "zone_label" (.str zz.2)
        (pyInsert "zone_label" (.str zz.2) (pyInsert "zone" (.str zz.1) oaM))
        = pyInsert "zone_label" (.str zz.2) (pyInsert "zone" (.str zz.1) oaM) := by
      apply pyInsert_self
      rw [pyLookup_pyInsert_same]
    rw [h2, pyInsert_self _ _ _ hyoa]
  have htry : truncStage y = .ok y := by
    cases hil : pyLookup m2 "interpret_lines" with
    | none =>
      rw [truncStage_eq_none m2 hil] at htr
      have hy : m2 = y := by
        simp only [Except.ok.injEq] at htr
        exact htr
      subst hy
      exact truncStage_eq_none m2 hil
    | some w =>
      rw [truncStage_eq_some m2 w hil] at htr
      cases hit : iterTruncate w with
      | error e => rw [hit] at htr; simp at htr
      | ok w' =>
        rw [hit] at htr
        have htr' : Except.ok (pyInsert "interpret_lines" w' m2) = Except.ok y := htr
        have hy : pyInsert "interpret_lines" w' m2 = y := by
          simp only [Except.ok.injEq] at htr'
          exact htr'
        have hyil : pyLookup y "interpret_lines" = some w' := by
          rw [← hy, pyLookup_pyInsert_same]
        rw [truncStage_eq_some y w' hyil, iterTruncate_idem w w' hit]
        show Except.ok (pyInsert "interpret_lines" w' y) = .ok y
        rw [pyInsert_self _ _ _ hyil]
  unfold validate_and_enrich_response
  rw [hmt, hfzy]
  show truncStage y = .ok y
  exact htry

def c4In : PyDict :=
  [("interpret_lines", .list
     [.dict [("first_person_interpretation", .str "a b c d e f g h")]])]

def c4Out : PyDict :=
  [("interpret_lines", .list
     [.dict [("first_person_interpretation", .str "a b c d e f")]]),
   ("pet_detected", .bool true),
   ("species", .str "unknown"),
   ("breed_detected", .str "unknown"),
   ("morphology_type", .str "standard"),
   ("morphology_adjustments_applied", .list []),
   ("video_type", .str "single_shot"),
   ("video_context", .str "Pet video analysis"),
   ("overall_assessment", .dict oaDefault),
   ("visual_analysis", .dict
     [("facs_codes_detected", .list []), ("key_observations", .list []),
      ("body_posture", .str "Not assessed"), ("confidence", .str "medium")]),
   ("audio_analysis", .dict
     [("vocalizations_detected", .list []), ("solicitation_purr_detected", .bool false)]),
   ("timeline", .list []),
   ("advisory", .dict
     [("headline", .str "Continue monitoring"), ("detailed_recommendations", .list []),
      ("urgency", .str "routine")])]

/-- C4 witness: normalizing an 8-word-line input gives `c4Out`; normalizing
`c4Out` again returns it byte-identically. -/
theorem normalizer_idempotent_witness :
    validate_and_enrich_response c4In = .ok c4Out ∧
    validate_and_enrich_response c4Out = .ok c4Out :=
  ⟨rfl, normalizer_idempotent c4In c4Out rfl⟩
